import Mathlib

/-!
# Verification of the PostPro milestone dependency / conflict-resolution engine

Shallow embedding of `src/lib/store.ts` (command parser, date reference
resolver, dependency checker, move transaction, command processor and the
catalog-ingestion mapping) together with the data model of `src/types.ts`.

Modelling conventions:
* JavaScript `Date` values are modelled at day granularity as `Int`, the
  number of days since 1970-01-01 (the Unix epoch).  All date operations the
  engine performs (`addDays`, `addWeeks`, `isBefore`, `isAfter`, `getDay`,
  `getFullYear`, `new Date(y, m, d)`, `startOfWeek`, `endOfWeek`) are
  functions on that representation.
* Strings are Lean `String`s; the parsers work on `List Char` (`String.data`).
* The JavaScript regular expressions of the source are embedded through a
  small backtracking regular-expression engine (`RE` / `runRE`) whose result
  ordering reproduces the greedy leftmost backtracking semantics of
  JavaScript `String.prototype.match`.
-/

namespace PostPro

/-! ## Characters and strings -/

/-- The apostrophe character (U+0027), used in several source strings and
regular expressions. -/
def aposChar : Char := Char.ofNat 39

/-- The apostrophe as a one-character string. -/
def apos : String := String.mk [aposChar]

/-- ASCII lower-casing of one character, as `String.prototype.toLowerCase`
acts on the ASCII range (all inputs of the engine are ASCII). -/
def jsToLowerChar (c : Char) : Char :=
  if 65 ≤ c.toNat ∧ c.toNat ≤ 90 then Char.ofNat (c.toNat + 32) else c

/-- ASCII upper-casing of one character (`String.prototype.toUpperCase`). -/
def jsToUpperChar (c : Char) : Char :=
  if 97 ≤ c.toNat ∧ c.toNat ≤ 122 then Char.ofNat (c.toNat - 32) else c

/-- `toLowerCase` on character lists. -/
def jsToLowerStr (s : List Char) : List Char := s.map jsToLowerChar

/-- `toUpperCase` on character lists. -/
def jsToUpperStr (s : List Char) : List Char := s.map jsToUpperChar

/-- White-space test used by `String.prototype.trim` and the `\s` regex
class, restricted to the ASCII white-space characters that can occur in the
engine's inputs. -/
def jsIsSpace (c : Char) : Bool :=
  c == ' ' || c == Char.ofNat 9 || c == Char.ofNat 10 || c == Char.ofNat 13

/-- `String.prototype.trim`: drop leading and trailing white space. -/
def jsTrim (s : List Char) : List Char :=
  ((s.dropWhile jsIsSpace).reverse.dropWhile jsIsSpace).reverse

/-- `a.isPrefixOf b` as a Boolean on character lists. -/
def isPrefixB : List Char → List Char → Bool
  | [], _ => true
  | _ :: _, [] => false
  | a :: as, b :: bs => a == b && isPrefixB as bs

/-- `String.prototype.includes`: `pat` occurs contiguously in `s`. -/
def containsStr : List Char → List Char → Bool
  | s, pat =>
    if isPrefixB pat s then true
    else match s with
      | [] => false
      | _ :: t => containsStr t pat

/-- JavaScript `parseInt` restricted to the all-digit capture strings the
engine feeds it: the decimal value of a digit string. -/
def parseIntDigits (l : List Char) : Int :=
  l.foldl (fun acc c => acc * 10 + ((c.toNat : Int) - 48)) 0

/-! ## Dates

A JavaScript `Date` is represented by the number of days since 1970-01-01.
`daysFromCivil`/`civilFromDays` are the standard Gregorian conversions
(floor-division formulation), matching ECMAScript `MakeDay`. -/

/-- `date-fns` `addDays`. -/
def addDays (d : Int) (n : Int) : Int := d + n

/-- `date-fns` `addWeeks`. -/
def addWeeks (d : Int) (n : Int) : Int := d + 7 * n

/-- `date-fns` `isAfter a b`: `a` is strictly after `b`. -/
def isAfter (a b : Int) : Bool := b < a

/-- `date-fns` `isBefore a b`: `a` is strictly before `b`. -/
def isBefore (a b : Int) : Bool := a < b

/-- `Date.prototype.getDay`: day of week, 0 = Sunday … 6 = Saturday.
1970-01-01 (day 0) was a Thursday (= 4). -/
def getDay (d : Int) : Int := (d + 4) % 7

/-- Days since 1970-01-01 of the Gregorian calendar date `y-m-d`
(`m ∈ [1,12]`; a day outside the month length rolls over linearly, exactly
as ECMAScript `MakeDay` does). -/
def daysFromCivil (y m d : Int) : Int :=
  let y' := if m ≤ 2 then y - 1 else y
  let era := y'.fdiv 400
  let yoe := y' - era * 400
  let mp := if m ≤ 2 then m + 9 else m - 3
  let doy := (153 * mp + 2).fdiv 5 + d - 1
  let doe := yoe * 365 + yoe.fdiv 4 - yoe.fdiv 100 + doy
  era * 146097 + doe - 719468

/-- Inverse of `daysFromCivil`: the Gregorian `(year, month, day)` of a day
number. -/
def civilFromDays (z : Int) : Int × Int × Int :=
  let z' := z + 719468
  let era := z'.fdiv 146097
  let doe := z' - era * 146097
  let yoe := (doe - doe.fdiv 1460 + doe.fdiv 36524 - doe.fdiv 146096).fdiv 365
  let y := yoe + era * 400
  let doy := doe - (365 * yoe + yoe.fdiv 4 - yoe.fdiv 100)
  let mp := (5 * doy + 2).fdiv 153
  let d := doy - (153 * mp + 2).fdiv 5 + 1
  let m := if mp < 10 then mp + 3 else mp - 9
  (if m ≤ 2 then y + 1 else y, m, d)

/-- `Date.prototype.getFullYear`. -/
def getFullYear (z : Int) : Int := (civilFromDays z).1

/-- The ECMAScript `new Date(year, month, day)` constructor (day value):
a year in `[0, 99]` is offset to `1900 + year`, the zero-based month is
normalised into `[0, 11]` carrying into the year, and the day of month rolls
over linearly. -/
def jsNewDate (year month0 day : Int) : Int :=
  let yr := if 0 ≤ year ∧ year ≤ 99 then year + 1900 else year
  let ym := yr + month0.fdiv 12
  let mn := month0 - 12 * month0.fdiv 12
  daysFromCivil ym (mn + 1) day

/-- `Date.prototype.toLocaleDateString` in the en-US locale: `M/D/YYYY`. -/
def jsToLocaleDateString (z : Int) : String :=
  let c := civilFromDays z
  toString c.2.1 ++ "/" ++ toString c.2.2 ++ "/" ++ toString c.1

/-- `date-fns` `startOfWeek` (weeks start on Sunday). -/
def startOfWeek (d : Int) : Int := d - getDay d

/-- `date-fns` `endOfWeek` (weeks start on Sunday). -/
def endOfWeek (d : Int) : Int := startOfWeek d + 6

/-! ## A backtracking regular-expression engine

The source matches fixed regular expressions with `String.prototype.match`.
`RE` is the abstract syntax of the fragment those patterns use; `runRE`
returns the list of possible `(remaining input, captures)` outcomes of
matching a prefix, in exactly the priority order of a greedy backtracking
engine (more-consuming alternatives first), so the head of the list is the
match JavaScript selects.  Every quantifier in the source patterns ranges
over a single character class (`\s*`, `\s+`, `\d+`, `\w+`, `.+`), so `star`
quantifies a character class directly. -/

/-- Regular-expression abstract syntax: empty, character class, sequence,
ordered alternation, greedy option, greedy star over a character class,
numbered capture group. -/
inductive RE where
  | eps
  | cls (p : Char → Bool)
  | seq (a b : RE)
  | alt (a b : RE)
  | opt (a : RE)
  | star (p : Char → Bool)
  | group (n : Nat) (a : RE)

/-- Capture environment: group number paired with the captured characters. -/
abbrev Caps := List (Nat × List Char)

/-- The greedy matches of `p*` against `s`: every split into a prefix of
`p`-characters and the rest, longest prefix first. -/
def starChars (p : Char → Bool) : List Char → List (List Char × Caps)
  | [] => [([], [])]
  | c :: t => (if p c then starChars p t else []) ++ [(c :: t, [])]

/-- All prefix matches of `re` against `s`, in backtracking priority order. -/
def runRE : RE → List Char → List (List Char × Caps)
  | .eps, s => [(s, [])]
  | .cls _, [] => []
  | .cls p, c :: rest => if p c then [(rest, [])] else []
  | .seq a b, s =>
    (runRE a s).flatMap (fun r => (runRE b r.1).map (fun q => (q.1, r.2 ++ q.2)))
  | .alt a b, s => runRE a s ++ runRE b s
  | .opt a, s => runRE a s ++ [(s, [])]
  | .star p, s => starChars p s
  | .group n a, s =>
    (runRE a s).map (fun r => (r.1, (n, s.take (s.length - r.1.length)) :: r.2))

/-- Scan left to right for the first position where `re` matches, as
`String.prototype.match` does for an unanchored pattern; returns the capture
environment of the selected match. -/
def regexSearch (re : RE) : List Char → Option Caps
  | [] =>
    match runRE re [] with
    | [] => none
    | r :: _ => some r.2
  | c :: t =>
    match runRE re (c :: t) with
    | r :: _ => some r.2
    | [] => regexSearch re t

/-- Look up capture group `n`; `none` models JavaScript `undefined` for a
group the match never entered. -/
def getCap (caps : Caps) (n : Nat) : Option (List Char) :=
  (caps.find? (fun p => p.1 == n)).map (fun p => p.2)

/-- Capture group as a `String`. -/
def getCapStr (caps : Caps) (n : Nat) : Option String :=
  (getCap caps n).map String.mk

/-- A literal character. -/
def relit (c : Char) : RE := .cls (fun x => x == c)

/-- A literal string. -/
def reStr (s : String) : RE := s.data.foldr (fun c acc => RE.seq (relit c) acc) .eps

/-- Sequence a list of patterns. -/
def reSeq (l : List RE) : RE := l.foldr RE.seq .eps

/-- `p+` for a character class: one occurrence then a greedy star. -/
def rePlus (p : Char → Bool) : RE := .seq (.cls p) (.star p)

/-- `\s+`. -/
def ws1 : RE := rePlus jsIsSpace

/-- `\s*`. -/
def ws0 : RE := .star jsIsSpace

/-- The `\d` class. -/
def reDigit : Char → Bool := Char.isDigit

/-- The `\w` class. -/
def reWord : Char → Bool := fun c => c.isAlphanum || c == Char.ofNat 95

/-- The `.` class (anything but a line terminator). -/
def reDot : Char → Bool := fun c => !(c == Char.ofNat 10 || c == Char.ofNat 13)

/-- The pattern `move\s+(\d+)(?:<apostrophe>s?)?\s+(\w+)\s+(?:to\s+)?(.+)` of
the move command (source line 95). -/
def moveRE : RE :=
  reSeq [reStr "move", ws1, .group 1 (rePlus reDigit),
    .opt (reSeq [relit aposChar, .opt (relit 's')]), ws1,
    .group 2 (rePlus reWord), ws1, .opt (reSeq [reStr "to", ws1]),
    .group 3 (rePlus reDot)]

/-- The what-if pattern of source line 108. -/
def whatIfRE : RE :=
  reSeq [reStr "what", ws0,
    .alt (reStr "if") (reSeq [reStr "happen", .opt (relit 's'), ws0, reStr "if"]),
    ws1, .group 1 (rePlus reDigit),
    .opt (reSeq [relit aposChar, .opt (relit 's')]), ws1,
    .group 2 (rePlus reWord), ws1,
    .opt (reSeq [reStr "slip", .opt (relit 's'), ws1]),
    .opt (reSeq [reStr "to", ws1]), .group 3 (rePlus reDot)]

/-- The pattern `show\s+(?:me\s+)?(.+)` (source line 121). -/
def showRE : RE :=
  reSeq [reStr "show", ws1, .opt (reSeq [reStr "me", ws1]), .group 1 (rePlus reDot)]

/-- The common prefix `what(?:<apostrophe>s|s|\s+is)` of the status-query
patterns (source lines 131 and 140). -/
def whatsRE : RE :=
  .seq (reStr "what")
    (.alt (reSeq [relit aposChar, relit 's'])
      (.alt (relit 's') (.seq ws1 (reStr "is"))))

/-- The blocking-query pattern (source line 131). -/
def blockingRE : RE :=
  reSeq [whatsRE, ws1, reStr "blocking", ws1, .group 1 (rePlus reDigit)]

/-- The late-query pattern (source line 140). -/
def lateRE : RE := reSeq [whatsRE, ws1, reStr "late"]

/-- The list pattern `list\s+(\w+)\s+(?:shots?\s+)?(?:for\s+)?(\d+)?`
(source line 150). -/
def listRE : RE :=
  reSeq [reStr "list", ws1, .group 1 (rePlus reWord), ws1,
    .opt (reSeq [reStr "shot", .opt (relit 's'), ws1]),
    .opt (reSeq [reStr "for", ws1]), .opt (.group 2 (rePlus reDigit))]

/-- `\d{1,2}` (greedy). -/
def reD12 : RE := .seq (.cls reDigit) (.opt (.cls reDigit))

/-- `\d{2,4}` (greedy). -/
def reD24 : RE :=
  reSeq [.cls reDigit, .cls reDigit, .opt (.seq (.cls reDigit) (.opt (.cls reDigit)))]

/-- The slash-date pattern `(\d{1,2})\/(\d{1,2})(?:\/(\d{2,4}))?`
(source line 200). -/
def slashRE : RE :=
  reSeq [.group 1 reD12, relit '/', .group 2 reD12,
    .opt (.seq (relit '/') (.group 3 reD24))]

/-! ## Command parser (`parseCommand`, source lines 87-167) -/

/-- Result of `parseCommand`: the `action` string, the `target` and the
`params` dictionary flattened into its possible entries (`milestoneCode`,
`newDate`, `type` — here `listType` — and `raw`); an entry the source does
not set is `none`. -/
structure ParsedCommand where
  action : String
  target : Option String
  milestoneCode : Option String
  newDate : Option String
  listType : Option String
  raw : Option String
  deriving Repr, DecidableEq

/-- `parseCommand` (source lines 87-167): ordered pattern alternatives over
the lower-cased, trimmed input; first match wins. -/
def parseCommand (input : String) : ParsedCommand :=
  let normalized := jsTrim (jsToLowerStr input.data)
  match regexSearch moveRE normalized with
  | some g =>
    { action := "move", target := getCapStr g 1,
      milestoneCode := (getCap g 2).map (fun l => String.mk (jsToUpperStr l)),
      newDate := getCapStr g 3, listType := none, raw := none }
  | none =>
  match regexSearch whatIfRE normalized with
  | some g =>
    { action := "what_if", target := getCapStr g 1,
      milestoneCode := (getCap g 2).map (fun l => String.mk (jsToUpperStr l)),
      newDate := getCapStr g 3, listType := none, raw := none }
  | none =>
  match regexSearch showRE normalized with
  | some g =>
    { action := "show", target := getCapStr g 1, milestoneCode := none,
      newDate := none, listType := none, raw := none }
  | none =>
  match regexSearch blockingRE normalized with
  | some g =>
    { action := "blocking", target := getCapStr g 1, milestoneCode := none,
      newDate := none, listType := none, raw := none }
  | none =>
  match regexSearch lateRE normalized with
  | some _ =>
    { action := "late", target := none, milestoneCode := none,
      newDate := none, listType := none, raw := none }
  | none =>
  match regexSearch listRE normalized with
  | some g =>
    { action := "list", target := getCapStr g 2, milestoneCode := none,
      newDate := none, listType := getCapStr g 1, raw := none }
  | none =>
    { action := "unknown", target := none, milestoneCode := none,
      newDate := none, listType := none, raw := some input }

/-! ## Date reference resolver (`parseDateReference`, source lines 173-218) -/

/-- The lower-case day names checked by the day-of-week branch; the list
index equals the `getDay` value of that day. -/
def daysOfWeek : List (List Char) :=
  ["sunday".data, "monday".data, "tuesday".data, "wednesday".data,
   "thursday".data, "friday".data, "saturday".data]

/-- Run the slash-date regex and return the digit captures
`(month, day, year?)`. -/
def slashSearch (s : List Char) : Option (List Char × List Char × Option (List Char)) :=
  match regexSearch slashRE s with
  | none => none
  | some g =>
    match getCap g 1, getCap g 2 with
    | some ms, some ds => some (ms, ds, getCap g 3)
    | _, _ => none

/-! ### The date-fns `parseISO` library fallback

`parseDateReference` falls back to the date-fns function `parseISO`
(library code, outside this repository).  The definitions below follow that
library's pipeline step by step: `splitDateString` cuts the input into date,
time and timezone substrings; `parseYear` reads a leading year or century;
`parseDate` matches the rest of the date string (extended or basic
month-and-day, ordinal day, ISO week date, or nothing) and validates the
ranges; a present time or timezone substring must also validate.  The
library is called with no options, so the default of two additional
century digits applies throughout. -/

/-- The `[+-]` sign class of the year and timezone patterns. -/
def isPlusMinus (c : Char) : Bool := c == '+' || c == '-'

/-- The date-time delimiter class `[T ]` (case-sensitive). -/
def isTSpace (c : Char) : Bool := c == 'T' || c == ' '

/-- The time-zone delimiter class `[Z ]` with the ignore-case flag. -/
def isZDelim (c : Char) : Bool := c == 'Z' || c == 'z' || c == ' '

/-- The class `[Z+-]` starting a trailing time-zone token (case-sensitive:
a lower-case `z` does not start one). -/
def isZPlusMinus (c : Char) : Bool := c == 'Z' || c == '+' || c == '-'

/-- `String.prototype.split` on the delimiter class `[T ]`. -/
def splitOnTSpace : List Char → List (List Char)
  | [] => [[]]
  | c :: t =>
    if isTSpace c then [] :: splitOnTSpace t
    else
      match splitOnTSpace t with
      | [] => [[c]]
      | h :: r => (c :: h) :: r

/-- The date / time / timezone substrings `parseISO` splits its input into;
a field is `none` where the library leaves it `undefined`. -/
structure DateStrings where
  date : Option (List Char)
  time : Option (List Char)
  timezone : Option (List Char)

/-- JavaScript truthiness of a possibly absent string: `undefined` and the
empty string are falsy. -/
def jsTruthy : Option (List Char) → Bool
  | none => false
  | some l => !l.isEmpty

/-- The library's `splitDateString`: split on `[T ]` (more than two pieces
is malformed); a first piece containing `:` is all time and leaves the date
absent; otherwise it is the date and the second piece, if any, the time —
unless the date piece contains a `[Z ]`-delimiter (ignore-case), in which
case the date is the input up to the first such delimiter and the time is
everything from it on.  A trailing `[Z+-]...` token of a non-empty time
string is split off as the timezone. -/
def splitDateString (s : List Char) : DateStrings :=
  let array := splitOnTSpace s
  if array.length > 2 then ⟨none, none, none⟩
  else
    let a0 := array.headD []
    let pair :=
      if a0.contains ':' then ((none : Option (List Char)), some a0)
      else if a0.any isZDelim then
        let d := s.takeWhile (fun c => !isZDelim c)
        (some d, some (s.drop d.length))
      else (some a0, array[1]?)
    if jsTruthy pair.2 then
      let ts := (pair.2).getD []
      let pre := ts.takeWhile (fun c => !isZPlusMinus c)
      if pre.length < ts.length then ⟨pair.1, some pre, some (ts.drop pre.length)⟩
      else ⟨pair.1, some ts, none⟩
    else ⟨pair.1, pair.2, none⟩

/-- Exactly `n` characters of the class `p`. -/
def reExact (p : Char → Bool) (n : Nat) : RE := reSeq (List.replicate n (.cls p))

/-- The full-string match of an anchored pattern (`^...$`): the first
backtracking outcome that consumes the whole input. -/
def matchFull (re : RE) (s : List Char) : Option Caps :=
  ((runRE re s).find? (fun r => r.1.isEmpty)).map (fun r => r.2)

/-- JavaScript `parseInt` on the optionally sign-prefixed digit captures of
the year pattern. -/
def jsParseIntSigned (l : List Char) : Int :=
  match l with
  | c :: t =>
    if c == '-' then -(parseIntDigits t)
    else if c == '+' then parseIntDigits t
    else parseIntDigits (c :: t)
  | [] => 0

/-- The library's year pattern with the default two additional digits:
`^(?:(\d{4}|[+-]\d{6})|(\d{2}|[+-]\d{4}))`. -/
def yearRE : RE :=
  .alt (.group 1 (.alt (reExact reDigit 4)
                   (.seq (.cls isPlusMinus) (reExact reDigit 6))))
       (.group 2 (.alt (reExact reDigit 2)
                   (.seq (.cls isPlusMinus) (reExact reDigit 4))))

/-- The library's `parseYear`: the leading year — a group-2 match is a
century, scaled by 100 — and the rest of the date string; `(none, [])` for
the no-match case (year `NaN`, rest empty). -/
def parseYearISO (s : List Char) : Option Int × List Char :=
  match runRE yearRE s with
  | [] => (none, [])
  | r :: _ =>
    match getCap r.2 1 with
    | some y => (some (jsParseIntSigned y), r.1)
    | none =>
      match getCap r.2 2 with
      | some c => (some (jsParseIntSigned c * 100), r.1)
      | none => (none, [])

/-- The library's rest-of-date pattern
`^-?(?:(\d{3})|(\d{2})(?:-?(\d{2}))?|W(\d{2})(?:-?(\d))?|)$`: ordinal day,
month with optional day (extended or basic), `W`-prefixed ISO week with
optional week day, or nothing. -/
def dateRestRE : RE :=
  .seq (.opt (relit '-'))
    (.alt (.group 1 (reExact reDigit 3))
      (.alt (.seq (.group 2 (reExact reDigit 2))
              (.opt (.seq (.opt (relit '-')) (.group 3 (reExact reDigit 2)))))
        (.alt (.seq (relit 'W') (.seq (.group 4 (reExact reDigit 2))
                (.opt (.seq (.opt (relit '-')) (.group 5 (.cls reDigit))))))
          .eps)))

/-- The library's `parseDateUnit`: a captured digit group's value, `1` when
the group is absent. -/
def parseDateUnit (v : Option (List Char)) : Int :=
  match v with
  | some l => parseIntDigits l
  | none => 1

/-- The library's leap-year test (`isLeapYearIndex`). -/
def isLeapYearIndex (y : Int) : Bool :=
  y % 400 == 0 || (y % 4 == 0 && y % 100 != 0)

/-- Days in the zero-based month `m0` of year `y`: the library's
`daysInMonths` table with the February leap rule (only consulted for
`m0 ∈ [0, 11]`). -/
def daysInMonthISO (y m0 : Int) : Int :=
  if m0 == 1 then (if isLeapYearIndex y then 29 else 28)
  else if m0 == 3 || m0 == 5 || m0 == 8 || m0 == 10 then 30
  else 31

/-- The library's `validateDate`: zero-based month in range and day of month
within the month's length. -/
def validateDateISO (y m0 d : Int) : Bool :=
  0 ≤ m0 && m0 ≤ 11 && 1 ≤ d && d ≤ daysInMonthISO y m0

/-- The library's `validateDayOfYearDate`. -/
def validateDayOfYearISO (y doy : Int) : Bool :=
  1 ≤ doy && doy ≤ (if isLeapYearIndex y then 366 else 365)

/-- The library's `validateWeekDate`: week 1–53, zero-based week day 0–6
(the year is not consulted, so week 53 passes even in 52-week years). -/
def validateWeekDateISO (w d : Int) : Bool :=
  1 ≤ w && w ≤ 53 && 0 ≤ d && d ≤ 6

/-- The library's `dayOfISOWeekYear`: the day of the given ISO week and
zero-based week day, anchored at January 4 (always in ISO week 1). -/
def dayOfISOWeekYear (y w d : Int) : Int :=
  let jan4 := daysFromCivil y 1 4
  let fourthOfJanuaryDay := if getDay jan4 == 0 then 7 else getDay jan4
  jan4 + ((w - 1) * 7 + d + 1 - fourthOfJanuaryDay)

/-- The library's `parseDate` on the rest of the date string, at day
granularity: `none` where it yields an Invalid Date (no match, year `NaN`,
or failed validation); a week date is resolved by `dayOfISOWeekYear`, the
rest through `setUTCFullYear(year, month, max(dayOfYear, day))` whose
day-of-month argument rolls over linearly, exactly as `daysFromCivil`
does. -/
def parseDateISO (rest : List Char) (year : Option Int) : Option Int :=
  match year with
  | none => none
  | some y =>
    match matchFull dateRestRE rest with
    | none => none
    | some caps =>
      if (getCap caps 4).isSome then
        let week := parseDateUnit (getCap caps 4)
        let dayOfWeek := parseDateUnit (getCap caps 5) - 1
        if validateWeekDateISO week dayOfWeek then
          some (dayOfISOWeekYear y week dayOfWeek)
        else none
      else
        let dayOfYear := parseDateUnit (getCap caps 1)
        let month := parseDateUnit (getCap caps 2) - 1
        let day := parseDateUnit (getCap caps 3)
        if validateDateISO y month day && validateDayOfYearISO y dayOfYear then
          some (daysFromCivil y (month + 1) (max dayOfYear day))
        else none

/-- A time unit of the library's time pattern: `\d{2}(?:[.,]\d*)?`. -/
def timeUnitRE : RE :=
  .seq (.cls reDigit) (.seq (.cls reDigit)
    (.opt (.seq (.cls (fun c => c == '.' || c == ',')) (.star reDigit))))

/-- The library's time pattern
`^(\d{2}(?:[.,]\d*)?)(?::?(\d{2}(?:[.,]\d*)?))?(?::?(\d{2}(?:[.,]\d*)?))?$`. -/
def timeRE : RE :=
  reSeq [.group 1 timeUnitRE,
    .opt (.seq (.opt (relit ':')) (.group 2 timeUnitRE)),
    .opt (.seq (.opt (relit ':')) (.group 3 timeUnitRE))]

/-- A captured time unit as its integer part paired with whether its
fractional part is exactly zero; an absent unit is exactly zero.  (The
library compares IEEE-double values; the comparison is exact up to the
double's precision, beyond the fractions that can occur.) -/
def timeUnitVal : Option (List Char) → Int × Bool
  | none => (0, true)
  | some l =>
    (parseIntDigits (l.takeWhile Char.isDigit),
     ((l.dropWhile Char.isDigit).drop 1).all (fun c => c == '0'))

/-- The library's `validateTime`: hours exactly 24 only with minutes and
seconds exactly zero; otherwise hours below 25 and minutes and seconds below
60 (a fractional part below one cannot cross these integer bounds, so the
integer parts decide them). -/
def validateTimeISO (h m s : Int × Bool) : Bool :=
  if h.1 == 24 && h.2 then (m.1 == 0 && m.2) && (s.1 == 0 && s.2)
  else m.1 < 60 && s.1 < 60 && h.1 < 25

/-- Whether the library's `parseTime` yields a valid (non-`NaN`) time.  The
time-of-day value itself is sub-day and dropped at the day granularity of
this embedding (a valid `24:00` time, which the library resolves to the
following midnight, is likewise collapsed onto the date part's day). -/
def timeParses (ts : List Char) : Bool :=
  match matchFull timeRE ts with
  | none => false
  | some caps =>
    validateTimeISO (timeUnitVal (getCap caps 1)) (timeUnitVal (getCap caps 2))
      (timeUnitVal (getCap caps 3))

/-- The library's timezone pattern `^([+-])(\d{2})(?::?(\d{2}))?$`. -/
def timezoneRE : RE :=
  reSeq [.group 1 (.cls isPlusMinus), .group 2 (reExact reDigit 2),
    .opt (.seq (.opt (relit ':')) (.group 3 (reExact reDigit 2)))]

/-- Whether the library's `parseTimezone` yields a valid (non-`NaN`) offset:
the literal `Z` (case-sensitive), or a sign, two hour digits and optional
minute digits with minutes at most 59.  The sub-day offset value itself is
dropped at day granularity. -/
def timezoneParses (tz : List Char) : Bool :=
  if tz = ['Z'] then true
  else
    match matchFull timezoneRE tz with
    | none => false
    | some caps => (((getCap caps 3).map parseIntDigits).getD 0) ≤ 59

/-- Model of the date-fns library function `parseISO` (library code, outside
this repository), called as the source does with no options: the input is
split into date, time and timezone substrings; a truthy date substring is
parsed through `parseYear` and `parseDate`, and `none` (the library's
Invalid Date) results if that fails or if a truthy time substring or a
present timezone substring fails validation.  The value is the parsed
calendar date's day number: per this embedding's day-granularity convention
the sub-day time of day and zone offset, which shift the resulting civil
day only around midnight (for example through a valid `24:00` time or a
crossing zone offset), are dropped. -/
def parseISO (s : List Char) : Option Int :=
  let ds := splitDateString s
  if jsTruthy ds.date then
    let yr := parseYearISO (ds.date.getD [])
    match parseDateISO yr.2 yr.1 with
    | none => none
    | some day =>
      if jsTruthy ds.time && !timeParses (ds.time.getD []) then none
      else if jsTruthy ds.timezone && !timezoneParses (ds.timezone.getD []) then none
      else some day
  else none

/-- `parseDateReference` (source lines 173-218).  The wall-clock default of
the `referenceDate` parameter is made an explicit argument.  The source wraps
the last two branches in `try`/`catch`; neither branch can throw, so the
`catch` is dead code and the embedding is total. -/
def parseDateReference (dateStr : List Char) (referenceDate : Int) : Option Int :=
  let normalized := jsTrim (jsToLowerStr dateStr)
  if normalized = "today".data then some referenceDate
  else if normalized = "tomorrow".data then some (addDays referenceDate 1)
  else if normalized = "yesterday".data then some (addDays referenceDate (-1))
  else
    match daysOfWeek.findIdx? (fun d => containsStr normalized d) with
    | some dayIndex =>
      let currentDay := getDay referenceDate
      let d0 := (dayIndex : Int) - currentDay
      let d1 := if d0 ≤ 0 then d0 + 7 else d0
      let d2 := if containsStr normalized ("next".data) then d1 + 7 else d1
      some (addDays referenceDate d2)
    | none =>
      if containsStr normalized ("next week".data) then some (addWeeks referenceDate 1)
      else
        match slashSearch normalized with
        | some (ms, ds, ys) =>
          let month := parseIntDigits ms - 1
          let day := parseIntDigits ds
          let year :=
            match ys with
            | some yl => if yl.length = 2 then 2000 + parseIntDigits yl else parseIntDigits yl
            | none => getFullYear referenceDate
          some (jsNewDate year month day)
        | none => parseISO normalized

/-- The date texts `parseDateReference` recognises: the disjunction of its
branch conditions.  Everything else falls through to `none`. -/
def recognizedDate (dateStr : List Char) : Bool :=
  let n := jsTrim (jsToLowerStr dateStr)
  n == "today".data || n == "tomorrow".data || n == "yesterday".data ||
  daysOfWeek.any (fun d => containsStr n d) ||
  containsStr n ("next week".data) ||
  (slashSearch n).isSome || (parseISO n).isSome

/-! ## Data model (`src/types.ts`)

Structure fields carry the fields the embedded operations read or update;
presentation-only optional fields (colors, runtimes, joined objects, …) do
not occur in the engine and are omitted.  `Date`-valued fields are day
numbers (`Int`). -/

/-- `Episode`. -/
structure Episode where
  id : String
  projectId : String
  number : String
  title : String
  director : Option String
  editor : Option String
  sortOrder : Int
  status : String
  createdAt : Int
  updatedAt : Int
  deriving Repr, DecidableEq

/-- `MilestoneType`: a catalog entry with its prerequisite codes. -/
structure MilestoneType where
  id : String
  projectId : String
  code : String
  name : String
  sortOrder : Int
  isHardDeadline : Bool
  requiresCompletionOf : List String
  createdAt : Int
  deriving Repr, DecidableEq

/-- `Milestone`: a scheduled instance of a milestone type for one episode. -/
structure Milestone where
  id : String
  episodeId : String
  milestoneTypeId : String
  scheduledDate : Option Int
  status : String
  notes : Option String
  createdAt : Int
  updatedAt : Int
  deriving Repr, DecidableEq

/-- `WorkItem` (the engine reads `episodeId` and `status`). -/
structure WorkItem where
  id : String
  episodeId : String
  workDescription : String
  status : String
  deriving Repr, DecidableEq

/-- `CalendarEvent`. -/
structure CalendarEvent where
  id : String
  projectId : String
  name : String
  eventType : String
  startDate : Int
  endDate : Option Int
  affectsAll : Bool
  createdAt : Int
  deriving Repr, DecidableEq

/-- `CrewMember` (never read by the engine; carried as data). -/
structure CrewMember where
  id : String
  projectId : String
  name : String
  deriving Repr, DecidableEq

/-- `Session` (never read by the engine; carried as data). -/
structure Session where
  id : String
  projectId : String
  name : String
  scheduledDate : Int
  status : String
  deriving Repr, DecidableEq

/-- `ScheduleConflict`.  The source field `type` is named `ctype` here
because `type` is a Lean keyword. -/
structure ScheduleConflict where
  ctype : String
  severity : String
  message : String
  affectedMilestones : List String
  suggestedResolution : Option String
  deriving Repr, DecidableEq

/-- `CommandResult` (the fields the store produces: `success`, `message`,
and the optional `conflicts`). -/
structure CommandResult where
  success : Bool
  message : String
  conflicts : Option (List ScheduleConflict)
  deriving Repr, DecidableEq

/-- `DateRange`.  The source field `end` is named `stop` here because `end`
is a Lean keyword. -/
structure DateRange where
  start : Int
  stop : Int
  deriving Repr, DecidableEq

/-- The slice of the zustand store state (`PostProState`) the engine operates
on: the data collections plus the two UI fields the command processor writes
(`dateRange`, `selectedEpisodeId`).  Pure UI flags (`viewMode`, `isLoading`,
`isSaving`, `error`, `showOnboarding`, `currentProject`,
`selectedMilestoneId`) are neither read nor written by the embedded
operations. -/
structure PostProState where
  episodes : List Episode
  milestones : List Milestone
  milestoneTypes : List MilestoneType
  workItems : List WorkItem
  calendarEvents : List CalendarEvent
  crewMembers : List CrewMember
  sessions : List Session
  selectedEpisodeId : Option String
  dateRange : DateRange
  deriving Repr, DecidableEq

/-! ## Dependency checker (`checkDependencies`, source lines 224-278) -/

/-- `checkDependencies` (source lines 224-278).  The two source `for` loops
pushing into the `conflicts` array are rendered as `filterMap`s, preserving
iteration order: the prerequisite pass first, the dependent pass second,
results concatenated. -/
def checkDependencies (milestone : Milestone) (newDate : Int) (state : PostProState) :
    List ScheduleConflict :=
  match state.milestoneTypes.find? (fun mt => mt.id == milestone.milestoneTypeId) with
  | none => []
  | some milestoneType =>
    let prereqConflicts := milestoneType.requiresCompletionOf.filterMap (fun prereqCode =>
      match state.milestoneTypes.find? (fun mt => mt.code == prereqCode) with
      | none => none
      | some prereqType =>
        match state.milestones.find? (fun m =>
            m.episodeId == milestone.episodeId && m.milestoneTypeId == prereqType.id) with
        | none => none
        | some prereqMilestone =>
          match prereqMilestone.scheduledDate with
          | none => none
          | some pd =>
            if isAfter pd newDate then
              some { ctype := "dependency", severity := "error",
                     message := milestoneType.code ++ " cannot be before " ++ prereqCode ++
                       " (scheduled " ++ jsToLocaleDateString pd ++ ")",
                     affectedMilestones := [milestone.id, prereqMilestone.id],
                     suggestedResolution := some ("Move " ++ prereqCode ++
                       " earlier or schedule " ++ milestoneType.code ++ " after " ++
                       jsToLocaleDateString pd) }
            else none)
    let dependents := state.milestoneTypes.filter (fun mt =>
      mt.requiresCompletionOf.contains milestoneType.code)
    let depConflicts := dependents.filterMap (fun depType =>
      match state.milestones.find? (fun m =>
          m.episodeId == milestone.episodeId && m.milestoneTypeId == depType.id) with
      | none => none
      | some depMilestone =>
        match depMilestone.scheduledDate with
        | none => none
        | some dd =>
          if isBefore dd newDate then
            some { ctype := "dependency", severity := "warning",
                   message := "This will require moving " ++ depType.code ++
                     " (currently " ++ jsToLocaleDateString dd ++ ")",
                   affectedMilestones := [milestone.id, depMilestone.id],
                   suggestedResolution := some (depType.code ++ " will cascade to after " ++
                     jsToLocaleDateString newDate) }
          else none)
    prereqConflicts ++ depConflicts

/-! ## Move transaction (`moveMilestone`, source lines 323-361) -/

/-- JavaScript template interpolation of `o?.f` for a possibly missing
object: a missing object renders as `undefined`. -/
def optStr {α : Type} (f : α → String) (o : Option α) : String :=
  match o with
  | some x => f x
  | none => "undefined"

/-- JavaScript template interpolation of a `string | null` value. -/
def jsStrOrNull (o : Option String) : String :=
  match o with
  | some s => s
  | none => "null"

/-- JavaScript template interpolation of a possibly absent params entry. -/
def jsStrOrUndef (o : Option String) : String :=
  match o with
  | some s => s
  | none => "undefined"

/-- `moveMilestone` (source lines 323-361), with the store's `get`/`set`
rendered as explicit state passing and `new Date()` (the `updatedAt`
timestamp) as the explicit argument `now`.  Returns the `CommandResult` and
the post-call state. -/
def moveMilestone (id : String) (newDate : Int) (now : Int) (state : PostProState) :
    CommandResult × PostProState :=
  match state.milestones.find? (fun m => m.id == id) with
  | none =>
    ({ success := false, message := "Milestone not found", conflicts := none }, state)
  | some milestone =>
    let conflicts := checkDependencies milestone newDate state
    let hasErrors := conflicts.any (fun c => c.severity == "error")
    if hasErrors then
      ({ success := false, message := "Cannot move milestone due to dependency conflicts",
         conflicts := some conflicts }, state)
    else
      let newState := { state with milestones := state.milestones.map (fun m =>
        if m.id == id then { m with scheduledDate := some newDate, updatedAt := now } else m) }
      let milestoneType := state.milestoneTypes.find? (fun mt =>
        mt.id == milestone.milestoneTypeId)
      let episode := state.episodes.find? (fun e => e.id == milestone.episodeId)
      ({ success := true,
         message := "Moved " ++ optStr Episode.number episode ++ " " ++
           optStr MilestoneType.code milestoneType ++ " to " ++ jsToLocaleDateString newDate,
         conflicts := if conflicts.length > 0 then some conflicts else none }, newState)

/-! ## Command processor (`processCommand`, source lines 376-589)

The source first delegates to the backend API when a non-demo project is
loaded; that branch is a network call to an external collaborator (spec §6)
and outside the pure core.  The embedding is the local parsing path the store
executes in demo mode (source lines 412-589). -/

/-- The pattern `(\d+)` used by the show branch (source line 571). -/
def showDigitsRE : RE := .group 1 (rePlus reDigit)

/-- `processCommand` (source lines 412-589): the local `switch` over the
parsed action, with `new Date()` passed explicitly as `now`.  Returns the
`CommandResult` and the post-call state. -/
def processCommand (input : String) (now : Int) (state : PostProState) :
    CommandResult × PostProState :=
  let parsed := parseCommand input
  if parsed.action == "move" then
    match state.episodes.find? (fun e =>
        containsStr e.number.data (parsed.target.getD "").data) with
    | none =>
      ({ success := false, message := "Episode " ++ jsStrOrNull parsed.target ++ " not found",
         conflicts := none }, state)
    | some episode =>
      match state.milestoneTypes.find? (fun mt =>
          (some mt.code : Option String) == parsed.milestoneCode) with
      | none =>
        ({ success := false,
           message := "Unknown milestone type: " ++ jsStrOrUndef parsed.milestoneCode,
           conflicts := none }, state)
      | some milestoneType =>
        match state.milestones.find? (fun m =>
            m.episodeId == episode.id && m.milestoneTypeId == milestoneType.id) with
        | none =>
          ({ success := false,
             message := episode.number ++ " doesn" ++ apos ++ "t have a " ++
               milestoneType.code ++ " scheduled",
             conflicts := none }, state)
        | some milestone =>
          match parseDateReference (parsed.newDate.getD "").data now with
          | none =>
            ({ success := false,
               message := "Couldn" ++ apos ++ "t understand date: \"" ++
                 jsStrOrUndef parsed.newDate ++ "\"",
               conflicts := none }, state)
          | some newDate => moveMilestone milestone.id newDate now state
  else if parsed.action == "what_if" then
    match state.episodes.find? (fun e =>
        containsStr e.number.data (parsed.target.getD "").data) with
    | none =>
      ({ success := false, message := "Episode " ++ jsStrOrNull parsed.target ++ " not found",
         conflicts := none }, state)
    | some episode =>
      match state.milestoneTypes.find? (fun mt =>
          (some mt.code : Option String) == parsed.milestoneCode) with
      | none =>
        ({ success := false,
           message := "Unknown milestone type: " ++ jsStrOrUndef parsed.milestoneCode,
           conflicts := none }, state)
      | some milestoneType =>
        match state.milestones.find? (fun m =>
            m.episodeId == episode.id && m.milestoneTypeId == milestoneType.id) with
        | none =>
          ({ success := false,
             message := episode.number ++ " doesn" ++ apos ++ "t have a " ++
               milestoneType.code ++ " scheduled",
             conflicts := none }, state)
        | some milestone =>
          match parseDateReference (parsed.newDate.getD "").data now with
          | none =>
            ({ success := false,
               message := "Couldn" ++ apos ++ "t understand date: \"" ++
                 jsStrOrUndef parsed.newDate ++ "\"",
               conflicts := none }, state)
          | some newDate =>
            let conflicts := checkDependencies milestone newDate state
            if conflicts.length == 0 then
              ({ success := true,
                 message := "Moving " ++ episode.number ++ " " ++ milestoneType.code ++
                   " to " ++ jsToLocaleDateString newDate ++ " would have no conflicts.",
                 conflicts := none }, state)
            else
              ({ success := true,
                 message := "Moving " ++ episode.number ++ " " ++ milestoneType.code ++
                   " to " ++ jsToLocaleDateString newDate ++ " would cause " ++
                   toString conflicts.length ++ " issue(s):",
                 conflicts := some conflicts }, state)
  else if parsed.action == "late" then
    let today := now
    let lateMilestones := state.milestones.filter (fun m =>
      match m.scheduledDate with
      | some d => isBefore d today && m.status != "completed"
      | none => false)
    if lateMilestones.length == 0 then
      ({ success := true, message := "Nothing is currently late!", conflicts := none }, state)
    else
      let lateItems := lateMilestones.map (fun m =>
        let ep := state.episodes.find? (fun e => e.id == m.episodeId)
        let mt := state.milestoneTypes.find? (fun t => t.id == m.milestoneTypeId)
        optStr Episode.number ep ++ " " ++ optStr MilestoneType.code mt)
      ({ success := true,
         message := toString lateMilestones.length ++
           " item(s) are past their scheduled date: " ++ String.intercalate ", " lateItems,
         conflicts := none }, state)
  else if parsed.action == "blocking" then
    match state.episodes.find? (fun e =>
        containsStr e.number.data (parsed.target.getD "").data) with
    | none =>
      ({ success := false, message := "Episode " ++ jsStrOrNull parsed.target ++ " not found",
         conflicts := none }, state)
    | some episode =>
      let incomplete := state.milestones.filter (fun m =>
        m.episodeId == episode.id && m.status != "completed")
      let pendingWork := state.workItems.filter (fun w =>
        w.episodeId == episode.id && w.status != "approved")
      let blockers :=
        (incomplete.filterMap (fun m =>
          match state.milestoneTypes.find? (fun t => t.id == m.milestoneTypeId) with
          | some mt => some (mt.code ++ " (" ++ m.status ++ ")")
          | none => none)) ++
        (if pendingWork.length > 0 then
          [toString pendingWork.length ++ " work item(s) pending"] else [])
      if blockers.length == 0 then
        ({ success := true, message := "Nothing is blocking " ++ episode.number ++ "!",
           conflicts := none }, state)
      else
        ({ success := true,
           message := episode.number ++ " is waiting on: " ++ String.intercalate ", " blockers,
           conflicts := none }, state)
  else if parsed.action == "show" then
    let target := jsToLowerStr (parsed.target.getD "").data
    if containsStr target ("this week".data) then
      ({ success := true, message := "Showing this week", conflicts := none },
       { state with dateRange := { start := startOfWeek now, stop := endOfWeek now } })
    else if containsStr target ("next week".data) then
      let nextWeek := addWeeks now 1
      ({ success := true, message := "Showing next week", conflicts := none },
       { state with dateRange := { start := startOfWeek nextWeek, stop := endOfWeek nextWeek } })
    else
      let fallback : CommandResult × PostProState :=
        ({ success := false,
           message := "Not sure what to show: \"" ++ jsStrOrNull parsed.target ++ "\"",
           conflicts := none }, state)
      match regexSearch showDigitsRE target with
      | none => fallback
      | some g =>
        match getCap g 1 with
        | none => fallback
        | some digits =>
          match state.episodes.find? (fun e => containsStr e.number.data digits) with
          | none => fallback
          | some episode =>
            ({ success := true, message := "Selected episode " ++ episode.number,
               conflicts := none },
             { state with selectedEpisodeId := some episode.id })
  else
    ({ success := false,
       message := "I didn" ++ apos ++ "t understand that. Try \"move 304 lock to Friday\"" ++
         " or \"what" ++ apos ++ "s late?\"",
       conflicts := none }, state)

/-! ## Catalog ingestion (`fetchProjectData`, source lines 646-655) -/

/-- A raw milestone-type row of the backend payload (snake_case fields). -/
structure RawMilestoneType where
  id : String
  project_id : String
  code : String
  name : String
  sort_order : Int
  is_hard_deadline : Bool
  requires_completion_of : Option (List String)
  created_at : Int
  deriving Repr, DecidableEq

/-- The milestone-type mapping of `fetchProjectData` (source lines 646-655):
the pure catalog-ingestion step between a fetched payload and the store
(the surrounding API call is external I/O).  It has no failure channel and
performs no validation of the prerequisite relation. -/
def ingestMilestoneTypes (raw : List RawMilestoneType) : List MilestoneType :=
  raw.map (fun mt =>
    { id := mt.id, projectId := mt.project_id, code := mt.code, name := mt.name,
      sortOrder := mt.sort_order, isHardDeadline := mt.is_hard_deadline,
      requiresCompletionOf := mt.requires_completion_of.getD [],
      createdAt := mt.created_at })

/-- The demo catalog of `loadDemoData` (source lines 775-786), the other
catalog-definition path; `new Date()` timestamps are the parameter `now`. -/
def demoMilestoneTypes (now : Int) : List MilestoneType :=
  [{ id := "mt-ec", projectId := "demo-project", code := "EC", name := "Editor" ++ apos ++ "s Cut",
     sortOrder := 1, isHardDeadline := false, requiresCompletionOf := [], createdAt := now },
   { id := "mt-dc", projectId := "demo-project", code := "DC", name := "Director" ++ apos ++ "s Cut",
     sortOrder := 2, isHardDeadline := false, requiresCompletionOf := ["EC"], createdAt := now },
   { id := "mt-nc1", projectId := "demo-project", code := "NC1", name := "Network Cut 1",
     sortOrder := 3, isHardDeadline := false, requiresCompletionOf := ["DC"], createdAt := now },
   { id := "mt-nc2", projectId := "demo-project", code := "NC2", name := "Network Cut 2",
     sortOrder := 4, isHardDeadline := false, requiresCompletionOf := ["NC1"], createdAt := now },
   { id := "mt-fpl", projectId := "demo-project", code := "FPL", name := "Final Picture Lock",
     sortOrder := 5, isHardDeadline := true, requiresCompletionOf := ["NC2"], createdAt := now },
   { id := "mt-ms", projectId := "demo-project", code := "M/S", name := "Music/Sound Spotting",
     sortOrder := 6, isHardDeadline := false, requiresCompletionOf := ["FPL"], createdAt := now },
   { id := "mt-cc", projectId := "demo-project", code := "CC", name := "Color Correction",
     sortOrder := 7, isHardDeadline := false, requiresCompletionOf := ["FPL"], createdAt := now },
   { id := "mt-mix", projectId := "demo-project", code := "MIX", name := "Final Mix",
     sortOrder := 8, isHardDeadline := false, requiresCompletionOf := ["M/S", "CC"], createdAt := now },
   { id := "mt-qc", projectId := "demo-project", code := "QC", name := "Quality Control",
     sortOrder := 9, isHardDeadline := false, requiresCompletionOf := ["MIX"], createdAt := now },
   { id := "mt-d", projectId := "demo-project", code := "D", name := "Delivery",
     sortOrder := 10, isHardDeadline := true, requiresCompletionOf := ["QC"], createdAt := now }]

/-! ## The prerequisite relation and cycles -/

/-- The prerequisite codes of a code in a catalog: the outgoing edges of the
`requiresCompletionOf` relation. -/
def prereqCodesOf (types : List MilestoneType) (c : String) : List String :=
  (types.filter (fun t => t.code == c)).flatMap (fun t => t.requiresCompletionOf)

/-- Codes reachable in one to `n` steps of the prerequisite relation from
the frontier. -/
def reachAux (types : List MilestoneType) : Nat → List String → List String
  | 0, _ => []
  | n + 1, front =>
    let nxt := front.flatMap (prereqCodesOf types)
    nxt ++ reachAux types n nxt

/-- The catalog's prerequisite relation over codes is acyclic: no type's code
reaches itself in one or more steps (paths longer than the number of types
repeat a code, so this fuel is complete). -/
def catalogAcyclic (types : List MilestoneType) : Bool :=
  types.all (fun t => !((reachAux types types.length [t.code]).contains t.code))

/-- The catalog's prerequisite relation contains a cycle. -/
def catalogHasCycle (types : List MilestoneType) : Bool := !catalogAcyclic types

/-! ## Specification-side definitions

These render the claims' wording, to be compared with the embedded code. -/

/-- Claim C2's qualifying prerequisites: the prerequisite codes of the
target's type, in catalog prerequisite order, whose (first) milestone in the
same episode has a scheduled date strictly after the proposed date; each with
that milestone and its date. -/
def qualifyingPrereqs (milestone : Milestone) (newDate : Int) (state : PostProState)
    (milestoneType : MilestoneType) : List (String × Milestone × Int) :=
  milestoneType.requiresCompletionOf.filterMap (fun code =>
    match state.milestoneTypes.find? (fun mt => mt.code == code) with
    | none => none
    | some pt =>
      match state.milestones.find? (fun m =>
          m.episodeId == milestone.episodeId && m.milestoneTypeId == pt.id) with
      | none => none
      | some pm =>
        match pm.scheduledDate with
        | none => none
        | some pd => if isAfter pd newDate then some (code, pm, pd) else none)

/-- Claim C2's qualifying dependents: the catalog types listing the target
type's code as a prerequisite, in catalog order, whose (first) milestone in
the same episode has a scheduled date strictly before the proposed date; each
with that milestone and its date. -/
def qualifyingDependents (milestone : Milestone) (newDate : Int) (state : PostProState)
    (milestoneType : MilestoneType) : List (MilestoneType × Milestone × Int) :=
  (state.milestoneTypes.filter (fun mt =>
      mt.requiresCompletionOf.contains milestoneType.code)).filterMap (fun depType =>
    match state.milestones.find? (fun m =>
        m.episodeId == milestone.episodeId && m.milestoneTypeId == depType.id) with
    | none => none
    | some dm =>
      match dm.scheduledDate with
      | none => none
      | some dd => if isBefore dd newDate then some (depType, dm, dd) else none)

/-- The `dependency`/`error` conflict emitted for one qualifying
prerequisite: names the target and prerequisite milestones and suggests a
resolution. -/
def prereqErrorConflict (milestone : Milestone) (milestoneType : MilestoneType)
    (pr : String × Milestone × Int) : ScheduleConflict :=
  { ctype := "dependency", severity := "error",
    message := milestoneType.code ++ " cannot be before " ++ pr.1 ++
      " (scheduled " ++ jsToLocaleDateString pr.2.2 ++ ")",
    affectedMilestones := [milestone.id, pr.2.1.id],
    suggestedResolution := some ("Move " ++ pr.1 ++ " earlier or schedule " ++
      milestoneType.code ++ " after " ++ jsToLocaleDateString pr.2.2) }

/-- The `dependency`/`warning` conflict emitted for one qualifying dependent:
names the target and dependent milestones and describes the forced shift. -/
def dependentWarningConflict (milestone : Milestone) (newDate : Int)
    (dep : MilestoneType × Milestone × Int) : ScheduleConflict :=
  { ctype := "dependency", severity := "warning",
    message := "This will require moving " ++ dep.1.code ++
      " (currently " ++ jsToLocaleDateString dep.2.2 ++ ")",
    affectedMilestones := [milestone.id, dep.2.1.id],
    suggestedResolution := some (dep.1.code ++ " will cascade to after " ++
      jsToLocaleDateString newDate) }

/-- Claim C6's day-of-week rule exactly as stated: the next occurrence of
day `dayIndex` on or after the reference date (so the reference date itself
when it already is that day), plus a week when the text contains "next". -/
def claimNextOnOrAfter (dayIndex : Nat) (r : Int) (hasNext : Bool) : Int :=
  r + ((dayIndex : Int) - getDay r).emod 7 + (if hasNext then 7 else 0)

/-- The day-of-week offset the source actually computes (before the "next"
extra week): the difference to the named day, bumped by a week when zero or
negative. -/
def dowOffset (i : Nat) (r : Int) : Int :=
  if (i : Int) - getDay r ≤ 0 then (i : Int) - getDay r + 7 else (i : Int) - getDay r

/-- Characters a slash-delimited date text is made of. -/
def dsChar (c : Char) : Bool := c.isDigit || c == '/'

/-- The slash-delimited date text built from a month block, a day block and
an optional year block (claim C7's `M/D` and `M/D/YY[YY]` forms). -/
def slashText (mb db : List Char) (yb : Option (List Char)) : List Char :=
  mb ++ ('/' :: (db ++ (match yb with | none => [] | some l => '/' :: l)))

/-- The year the resolver assigns to a slash-delimited date: `2000 + YY` for
a two-digit block, the literal value for a longer block, and the reference
date's year when the block is absent. -/
def slashYear (yb : Option (List Char)) (r : Int) : Int :=
  match yb with
  | some l => if l.length = 2 then 2000 + parseIntDigits l else parseIntDigits l
  | none => getFullYear r

/-! ## Witness data

A small concrete schedule: one episode (302) with an Editor's Cut scheduled
2024-01-11 (day 19733) and a Director's Cut — requiring EC — scheduled
2024-01-18 (day 19740). -/

/-- Witness episode 302. -/
def sampleEpisode : Episode :=
  { id := "ep-2", projectId := "demo-project", number := "302", title := "",
    director := some "Garcia", editor := some "Maddox", sortOrder := 1,
    status := "active", createdAt := 0, updatedAt := 0 }

/-- Witness catalog: EC with no prerequisite, DC requiring EC. -/
def sampleTypes : List MilestoneType :=
  [{ id := "mt-ec", projectId := "demo-project", code := "EC", name := "Editors Cut",
     sortOrder := 1, isHardDeadline := false, requiresCompletionOf := [], createdAt := 0 },
   { id := "mt-dc", projectId := "demo-project", code := "DC", name := "Directors Cut",
     sortOrder := 2, isHardDeadline := false, requiresCompletionOf := ["EC"], createdAt := 0 }]

/-- Witness EC milestone, scheduled 2024-01-11. -/
def msEC : Milestone :=
  { id := "ms-ec-302", episodeId := "ep-2", milestoneTypeId := "mt-ec",
    scheduledDate := some 19733, status := "scheduled", notes := none,
    createdAt := 0, updatedAt := 0 }

/-- Witness DC milestone, scheduled 2024-01-18. -/
def msDC : Milestone :=
  { id := "ms-dc-302", episodeId := "ep-2", milestoneTypeId := "mt-dc",
    scheduledDate := some 19740, status := "scheduled", notes := none,
    createdAt := 0, updatedAt := 0 }

/-- The witness schedule state. -/
def sampleState : PostProState :=
  { episodes := [sampleEpisode], milestones := [msEC, msDC], milestoneTypes := sampleTypes,
    workItems := [], calendarEvents := [], crewMembers := [], sessions := [],
    selectedEpisodeId := none, dateRange := { start := 0, stop := 0 } }

/-- A cyclic two-type catalog payload: A requires B and B requires A. -/
def cyclicRawCatalog : List RawMilestoneType :=
  [{ id := "mt-a", project_id := "p", code := "A", name := "Stage A", sort_order := 1,
     is_hard_deadline := false, requires_completion_of := some ["B"], created_at := 0 },
   { id := "mt-b", project_id := "p", code := "B", name := "Stage B", sort_order := 2,
     is_hard_deadline := false, requires_completion_of := some ["A"], created_at := 0 }]

/-! # Theorems -/

/-- **C1.**  For every schedule state and every call `moveMilestone(id,
newDate)`: if the returned result has `success = false` (milestone not found,
or a blocking conflict) then no milestone is mutated — the whole state, in
particular the target milestone's `scheduledDate`, is exactly what it was
before the call; and if the result has `success = true` with no conflicts,
the target milestone's `scheduledDate` afterwards equals `newDate` exactly. -/
theorem moveMilestone_result_date_correct (state : PostProState) (id : String)
    (newDate now : Int) :
    ((moveMilestone id newDate now state).1.success = false →
      (moveMilestone id newDate now state).2 = state) ∧
    ((moveMilestone id newDate now state).1.success = true ∧
        (moveMilestone id newDate now state).1.conflicts = none →
      ∀ m ∈ (moveMilestone id newDate now state).2.milestones,
        m.id = id → m.scheduledDate = some newDate) := by
  unfold moveMilestone
  cases hfind : state.milestones.find? (fun m => m.id == id) with
  | none => exact ⟨fun _ => rfl, fun h => absurd h.1 (by simp)⟩
  | some milestone =>
    dsimp only
    by_cases herr :
        (checkDependencies milestone newDate state).any (fun c => c.severity == "error") = true
    · rw [if_pos herr]
      exact ⟨fun _ => rfl, fun h => absurd h.1 (by simp)⟩
    · rw [if_neg herr]
      refine ⟨fun h => absurd h (by simp), ?_⟩
      rintro ⟨-, -⟩ m hm hid
      simp only [List.mem_map] at hm
      obtain ⟨m0, -, rfl⟩ := hm
      by_cases h0 : m0.id == id
      · rw [if_pos h0]
      · rw [if_neg h0] at hid ⊢
        exact absurd hid (by simpa using h0)

/-- Witness for `moveMilestone_result_date_correct` at concrete inputs: the
blocked move of DC to 2024-01-08 leaves the sample state unchanged, and the
clean move of DC to 2024-01-19 sets its date to exactly that day. -/
theorem moveMilestone_result_date_correct_witness :
    ((moveMilestone "ms-dc-302" 19730 100 sampleState).1.success = false ∧
      (moveMilestone "ms-dc-302" 19730 100 sampleState).2 = sampleState) ∧
    ((moveMilestone "ms-dc-302" 19741 100 sampleState).1.success = true ∧
      ∀ m ∈ (moveMilestone "ms-dc-302" 19741 100 sampleState).2.milestones,
        m.id = "ms-dc-302" → m.scheduledDate = some 19741) :=
  ⟨⟨by decide,
    (moveMilestone_result_date_correct sampleState "ms-dc-302" 19730 100).1 (by decide)⟩,
   ⟨by decide,
    (moveMilestone_result_date_correct sampleState "ms-dc-302" 19741 100).2
      ⟨by decide, by decide⟩⟩⟩

/-- **C3 counterexample.**  Moving the sample DC before its EC prerequisite
is blocked by an error-severity conflict, but the failure message is
`"Cannot move milestone due to dependency conflicts"`, not the
`"cannot move due to dependency conflicts"` stated by the claim. -/
theorem moveMilestone_message_counterexample :
    (checkDependencies msDC 19730 sampleState).any (fun c => c.severity == "error") = true ∧
    (moveMilestone "ms-dc-302" 19730 100 sampleState).1.success = false ∧
    (moveMilestone "ms-dc-302" 19730 100 sampleState).1.message ≠
      "cannot move due to dependency conflicts" ∧
    (moveMilestone "ms-dc-302" 19730 100 sampleState).1.message =
      "Cannot move milestone due to dependency conflicts" := by
  refine ⟨by decide, by decide, by decide, by decide⟩

/-- **C3 (amended).**  For every state and existing milestone,
`moveMilestone` fails — with `success = false`, the message "Cannot move
milestone due to dependency conflicts" and the full conflict list returned —
iff the evaluator reports at least one error-severity conflict; otherwise it
applies the move and returns `success = true` with the warning-severity
conflicts attached to the success result (`none` when the list is empty), so
a warning alone never blocks. -/
theorem moveMilestone_blocks_iff_error (state : PostProState) (id : String)
    (newDate now : Int) (milestone : Milestone)
    (hfind : state.milestones.find? (fun m => m.id == id) = some milestone) :
    ((moveMilestone id newDate now state).1.success = false ↔
      (checkDependencies milestone newDate state).any (fun c => c.severity == "error") = true) ∧
    ((checkDependencies milestone newDate state).any (fun c => c.severity == "error") = true →
      (moveMilestone id newDate now state).1 =
        { success := false, message := "Cannot move milestone due to dependency conflicts",
          conflicts := some (checkDependencies milestone newDate state) }) ∧
    ((checkDependencies milestone newDate state).any (fun c => c.severity == "error") = false →
      (moveMilestone id newDate now state).1.success = true ∧
      (moveMilestone id newDate now state).1.conflicts =
        (if (checkDependencies milestone newDate state).length > 0
         then some (checkDependencies milestone newDate state) else none)) := by
  unfold moveMilestone
  rw [hfind]
  dsimp only
  by_cases herr :
      (checkDependencies milestone newDate state).any (fun c => c.severity == "error") = true
  · rw [if_pos herr]
    refine ⟨⟨fun _ => herr, fun _ => rfl⟩, fun _ => rfl, fun h => ?_⟩
    rw [herr] at h
    exact absurd h (by simp)
  · rw [if_neg herr]
    refine ⟨⟨fun h => absurd h (by simp), fun h => absurd h herr⟩, fun h => absurd h herr,
      fun _ => ⟨rfl, rfl⟩⟩

/-- Witness for `moveMilestone_blocks_iff_error` at concrete inputs,
realising the spec scenario: EC has the dependent DC scheduled before the
proposed EC date, so moving EC succeeds and carries exactly one
warning-severity conflict; and the blocked DC move returns the full list. -/
theorem moveMilestone_blocks_iff_error_witness :
    ((moveMilestone "ms-ec-302" 19745 100 sampleState).1.success = true ∧
      (moveMilestone "ms-ec-302" 19745 100 sampleState).1.conflicts =
        (if (checkDependencies msEC 19745 sampleState).length > 0
         then some (checkDependencies msEC 19745 sampleState) else none) ∧
      (checkDependencies msEC 19745 sampleState).length = 1 ∧
      (checkDependencies msEC 19745 sampleState).all
        (fun c => c.severity == "warning") = true) ∧
    ((moveMilestone "ms-dc-302" 19730 100 sampleState).1.success = false ↔
      (checkDependencies msDC 19730 sampleState).any (fun c => c.severity == "error") = true) := by
  refine ⟨⟨?_, ?_, by decide, by decide⟩, ?_⟩
  · exact ((moveMilestone_blocks_iff_error sampleState "ms-ec-302" 19745 100 msEC
      (by decide)).2.2 (by decide)).1
  · exact ((moveMilestone_blocks_iff_error sampleState "ms-ec-302" 19745 100 msEC
      (by decide)).2.2 (by decide)).2
  · exact (moveMilestone_blocks_iff_error sampleState "ms-dc-302" 19730 100 msDC
      (by decide)).1

/-- **C4 counterexample.**  The catalog-ingestion mapping of
`fetchProjectData` accepts the cyclic catalog {A requires B, B requires A}
instead of refusing it: ingestion succeeds, the stored catalog contains the
cycle, and both edges are intact. -/
theorem ingest_accepts_cyclic_catalog :
    catalogHasCycle (ingestMilestoneTypes cyclicRawCatalog) = true ∧
    (ingestMilestoneTypes cyclicRawCatalog).map
      (fun t => (t.code, t.requiresCompletionOf)) = [("A", ["B"]), ("B", ["A"])] := by
  refine ⟨by decide, by decide⟩

/-- **C4 (amended).**  No catalog-ingestion path performs cycle validation:
the milestone-type mapping of `fetchProjectData` is total, accepts every
catalog — cyclic ones included — verbatim, and preserves every prerequisite
edge (it never drops edges and never refuses a catalog). -/
theorem ingest_no_cycle_check (raw : List RawMilestoneType) :
    (ingestMilestoneTypes raw).map (fun t => (t.code, t.requiresCompletionOf)) =
      raw.map (fun r => (r.code, r.requires_completion_of.getD [])) := by
  simp [ingestMilestoneTypes]

/-- **C8 counterexample.**  `parse("move 304 lock to Friday")` yields the
date text `"friday"` — the parser lower-cases the whole input before
matching — not the claim's `"Friday"`. -/
theorem parseCommand_dateText_counterexample :
    (parseCommand "move 304 lock to Friday").newDate = some "friday" ∧
    (some "friday" : Option String) ≠ some "Friday" := by
  refine ⟨by decide, by decide⟩

/-- **C8 (amended).**  `parse("move 304 lock to Friday")` yields a move
intent with episode reference "304", milestone code "LOCK" (case-normalised
to upper case) and date text "friday" (the parser lower-cases the input, so
the date text is the lower-cased form of "Friday"); and
`parse("what's late?")` yields the late intent with no target. -/
theorem parseCommand_examples :
    parseCommand "move 304 lock to Friday" =
      { action := "move", target := some "304", milestoneCode := some "LOCK",
        newDate := some "friday", listType := none, raw := none } ∧
    parseCommand ("what" ++ apos ++ "s late?") =
      { action := "late", target := none, milestoneCode := none,
        newDate := none, listType := none, raw := none } := by
  refine ⟨by decide, by decide⟩

/-- **C9.**  For a fixed state with an acyclic catalog and fixed milestone
and proposed date, any two calls of the dependency check with identical
arguments return identical conflict lists: the same conflicts with the same
fields at every position, in the same order. -/
theorem checkDependencies_deterministic (m1 m2 : Milestone) (d1 d2 : Int)
    (s1 s2 : PostProState) (hacyc : catalogAcyclic s1.milestoneTypes = true)
    (hm : m1 = m2) (hd : d1 = d2) (hs : s1 = s2) :
    checkDependencies m1 d1 s1 = checkDependencies m2 d2 s2 ∧
    (checkDependencies m1 d1 s1).length = (checkDependencies m2 d2 s2).length ∧
    ∀ i : Nat, (checkDependencies m1 d1 s1)[i]? = (checkDependencies m2 d2 s2)[i]? := by
  subst hm; subst hd; subst hs
  exact ⟨rfl, rfl, fun _ => rfl⟩

/-- Witness for `checkDependencies_deterministic`: two runs on the sample
schedule (whose catalog is acyclic) agree. -/
theorem checkDependencies_deterministic_witness :
    catalogAcyclic sampleState.milestoneTypes = true ∧
    checkDependencies msDC 19730 sampleState = checkDependencies msDC 19730 sampleState :=
  ⟨by decide,
   (checkDependencies_deterministic msDC msDC 19730 19730 sampleState sampleState
     (by decide) rfl rfl rfl).1⟩

/-- **C10.**  A successful `moveMilestone` changes nothing but the target:
the episodes, milestoneTypes, calendarEvents, workItems and sessions
collections are unchanged; the milestones list keeps its length; every
milestone whose id differs from the target id is unchanged at its position;
and a milestone carrying the target id changes exactly its `scheduledDate`
and `updatedAt` fields, all other fields preserved. -/
theorem moveMilestone_frame (state : PostProState) (id : String) (newDate now : Int)
    (h : (moveMilestone id newDate now state).1.success = true) :
    (moveMilestone id newDate now state).2.episodes = state.episodes ∧
    (moveMilestone id newDate now state).2.milestoneTypes = state.milestoneTypes ∧
    (moveMilestone id newDate now state).2.calendarEvents = state.calendarEvents ∧
    (moveMilestone id newDate now state).2.workItems = state.workItems ∧
    (moveMilestone id newDate now state).2.sessions = state.sessions ∧
    (moveMilestone id newDate now state).2.milestones.length = state.milestones.length ∧
    ∀ (i : Nat) (hi : i < state.milestones.length)
      (hj : i < (moveMilestone id newDate now state).2.milestones.length),
      ((state.milestones.get ⟨i, hi⟩).id ≠ id →
        (moveMilestone id newDate now state).2.milestones.get ⟨i, hj⟩ =
          state.milestones.get ⟨i, hi⟩) ∧
      ((state.milestones.get ⟨i, hi⟩).id = id →
        (moveMilestone id newDate now state).2.milestones.get ⟨i, hj⟩ =
          { state.milestones.get ⟨i, hi⟩ with
              scheduledDate := some newDate, updatedAt := now }) := by
  revert h
  unfold moveMilestone
  cases hfind : state.milestones.find? (fun m => m.id == id) with
  | none => intro h; exact absurd h (by simp)
  | some milestone =>
    dsimp only
    by_cases herr :
        (checkDependencies milestone newDate state).any (fun c => c.severity == "error") = true
    · rw [if_pos herr]
      intro h; exact absurd h (by simp)
    · rw [if_neg herr]
      intro _
      refine ⟨rfl, rfl, rfl, rfl, rfl, List.length_map _ _, ?_⟩
      intro i hi hj
      constructor
      · intro hne
        simp only [List.get_eq_getElem, List.getElem_map]
        rw [if_neg (by simpa using hne)]
      · intro heq
        simp only [List.get_eq_getElem, List.getElem_map]
        rw [if_pos (by simpa using heq)]

/-- **C2.**  For a state with an acyclic catalog, a milestone of type
`milestoneType` and a proposed date, `checkDependencies` returns exactly: one
`dependency`/`error` conflict for each prerequisite code of the type — taken
in the order listed in `requiresCompletionOf` — whose milestone in the same
episode is scheduled strictly after the proposed date, naming both milestones
and carrying a suggested resolution; followed by one `dependency`/`warning`
conflict for each dependent type (a catalog type listing this type's code as
a prerequisite, in catalog order) whose milestone in the same episode is
scheduled strictly before the proposed date — all prerequisite errors before
all dependent warnings, and no other conflicts. -/
theorem checkDependencies_spec (milestone : Milestone) (newDate : Int)
    (state : PostProState) (milestoneType : MilestoneType)
    (hacyc : catalogAcyclic state.milestoneTypes = true)
    (htype : state.milestoneTypes.find? (fun mt => mt.id == milestone.milestoneTypeId) =
      some milestoneType) :
    checkDependencies milestone newDate state =
      (qualifyingPrereqs milestone newDate state milestoneType).map
        (prereqErrorConflict milestone milestoneType) ++
      (qualifyingDependents milestone newDate state milestoneType).map
        (dependentWarningConflict milestone newDate) ∧
    (∀ pr ∈ qualifyingPrereqs milestone newDate state milestoneType,
      pr.1 ∈ milestoneType.requiresCompletionOf ∧
      isAfter pr.2.2 newDate = true ∧
      pr.2.1.scheduledDate = some pr.2.2 ∧
      pr.2.1.episodeId = milestone.episodeId ∧
      (prereqErrorConflict milestone milestoneType pr).ctype = "dependency" ∧
      (prereqErrorConflict milestone milestoneType pr).severity = "error" ∧
      (prereqErrorConflict milestone milestoneType pr).affectedMilestones =
        [milestone.id, pr.2.1.id] ∧
      (prereqErrorConflict milestone milestoneType pr).suggestedResolution.isSome = true) ∧
    (∀ dep ∈ qualifyingDependents milestone newDate state milestoneType,
      dep.1 ∈ state.milestoneTypes ∧
      dep.1.requiresCompletionOf.contains milestoneType.code = true ∧
      isBefore dep.2.2 newDate = true ∧
      dep.2.1.scheduledDate = some dep.2.2 ∧
      dep.2.1.episodeId = milestone.episodeId ∧
      (dependentWarningConflict milestone newDate dep).ctype = "dependency" ∧
      (dependentWarningConflict milestone newDate dep).severity = "warning" ∧
      (dependentWarningConflict milestone newDate dep).affectedMilestones =
        [milestone.id, dep.2.1.id] ∧
      (dependentWarningConflict milestone newDate dep).suggestedResolution.isSome = true) := by
  refine ⟨?_, ?_, ?_⟩
  · unfold checkDependencies
    rw [htype]
    dsimp only
    congr 1
    · unfold qualifyingPrereqs
      rw [List.map_filterMap]
      apply List.filterMap_congr
      intro code _
      cases hpt : state.milestoneTypes.find? (fun mt => mt.code == code) with
      | none => rfl
      | some pt =>
        dsimp only
        cases hpm : state.milestones.find? (fun m =>
            m.episodeId == milestone.episodeId && m.milestoneTypeId == pt.id) with
        | none => rfl
        | some pm =>
          dsimp only
          cases hpd : pm.scheduledDate with
          | none => rfl
          | some pd =>
            dsimp only
            by_cases hia : isAfter pd newDate = true
            · rw [if_pos hia, if_pos hia]; rfl
            · rw [if_neg hia, if_neg hia]; rfl
    · unfold qualifyingDependents
      rw [List.map_filterMap]
      apply List.filterMap_congr
      intro depType _
      cases hdm : state.milestones.find? (fun m =>
          m.episodeId == milestone.episodeId && m.milestoneTypeId == depType.id) with
      | none => rfl
      | some dm =>
        dsimp only
        cases hdd : dm.scheduledDate with
        | none => rfl
        | some dd =>
          dsimp only
          by_cases hib : isBefore dd newDate = true
          · rw [if_pos hib, if_pos hib]; rfl
          · rw [if_neg hib, if_neg hib]; rfl
  · intro pr hpr
    simp only [qualifyingPrereqs, List.mem_filterMap] at hpr
    obtain ⟨code, hmem, hcode⟩ := hpr
    cases hpt : state.milestoneTypes.find? (fun mt => mt.code == code) with
    | none => rw [hpt] at hcode; exact absurd hcode (by simp)
    | some pt =>
      rw [hpt] at hcode
      dsimp only at hcode
      cases hpm : state.milestones.find? (fun m =>
          m.episodeId == milestone.episodeId && m.milestoneTypeId == pt.id) with
      | none => rw [hpm] at hcode; exact absurd hcode (by simp)
      | some pm =>
        rw [hpm] at hcode
        dsimp only at hcode
        cases hpd : pm.scheduledDate with
        | none => rw [hpd] at hcode; exact absurd hcode (by simp)
        | some pd =>
          rw [hpd] at hcode
          dsimp only at hcode
          by_cases hia : isAfter pd newDate = true
          · rw [if_pos hia] at hcode
            obtain rfl : (code, pm, pd) = pr := by simpa using hcode
            have hepi : pm.episodeId = milestone.episodeId := by
              have := List.find?_some hpm
              simp only [Bool.and_eq_true, beq_iff_eq] at this
              exact this.1
            exact ⟨hmem, hia, hpd, hepi, rfl, rfl, rfl, rfl⟩
          · rw [if_neg hia] at hcode
            exact absurd hcode (by simp)
  · intro dep hdep
    simp only [qualifyingDependents, List.mem_filterMap, List.mem_filter] at hdep
    obtain ⟨depType, ⟨hmem, hreq⟩, hcode⟩ := hdep
    cases hdm : state.milestones.find? (fun m =>
        m.episodeId == milestone.episodeId && m.milestoneTypeId == depType.id) with
    | none => rw [hdm] at hcode; exact absurd hcode (by simp)
    | some dm =>
      rw [hdm] at hcode
      dsimp only at hcode
      cases hdd : dm.scheduledDate with
      | none => rw [hdd] at hcode; exact absurd hcode (by simp)
      | some dd =>
        rw [hdd] at hcode
        dsimp only at hcode
        by_cases hib : isBefore dd newDate = true
        · rw [if_pos hib] at hcode
          obtain rfl : (depType, dm, dd) = dep := by simpa using hcode
          have hepi : dm.episodeId = milestone.episodeId := by
            have := List.find?_some hdm
            simp only [Bool.and_eq_true, beq_iff_eq] at this
            exact this.1
          exact ⟨hmem, hreq, hib, hdd, hepi, rfl, rfl, rfl, rfl⟩
        · rw [if_neg hib] at hcode
          exact absurd hcode (by simp)

/-- Witness for `checkDependencies_spec`: on the sample schedule (acyclic
catalog), the conflicts of moving DC to 2024-01-08 decompose exactly into
the prerequisite-error pass followed by the dependent-warning pass of its
type. -/
theorem checkDependencies_spec_witness :
    catalogAcyclic sampleState.milestoneTypes = true ∧
    sampleState.milestoneTypes.find? (fun mt => mt.id == msDC.milestoneTypeId) =
      some { id := "mt-dc", projectId := "demo-project", code := "DC", name := "Directors Cut",
             sortOrder := 2, isHardDeadline := false, requiresCompletionOf := ["EC"],
             createdAt := 0 } ∧
    checkDependencies msDC 19730 sampleState =
      (qualifyingPrereqs msDC 19730 sampleState
        { id := "mt-dc", projectId := "demo-project", code := "DC", name := "Directors Cut",
          sortOrder := 2, isHardDeadline := false, requiresCompletionOf := ["EC"],
          createdAt := 0 }).map
        (prereqErrorConflict msDC
          { id := "mt-dc", projectId := "demo-project", code := "DC", name := "Directors Cut",
            sortOrder := 2, isHardDeadline := false, requiresCompletionOf := ["EC"],
            createdAt := 0 }) ++
      (qualifyingDependents msDC 19730 sampleState
        { id := "mt-dc", projectId := "demo-project", code := "DC", name := "Directors Cut",
          sortOrder := 2, isHardDeadline := false, requiresCompletionOf := ["EC"],
          createdAt := 0 }).map (dependentWarningConflict msDC 19730) :=
  ⟨by decide, by decide,
   (checkDependencies_spec msDC 19730 sampleState _ (by decide) (by decide)).1⟩

/-- **C5.**  Processing a what-if command whose episode reference, milestone
code and date text all resolve runs only the dependency check and never the
Apply step: it returns `success = true` regardless of conflict severity,
carrying exactly the conflict list the evaluator computes on those inputs —
the same list a blocked Move on the same inputs returns — or the
no-conflicts message when that list is empty, and leaves the state (hence
every milestone's `scheduledDate`) unchanged. -/
theorem processCommand_whatIf (input : String) (now : Int) (state : PostProState)
    (t code dtext : String) (ep : Episode) (mt : MilestoneType) (ms : Milestone) (nd : Int)
    (hparse : parseCommand input =
      { action := "what_if", target := some t, milestoneCode := some code,
        newDate := some dtext, listType := none, raw := none })
    (hep : state.episodes.find? (fun e => containsStr e.number.data t.data) = some ep)
    (hmt : state.milestoneTypes.find?
      (fun mtype => (some mtype.code : Option String) == some code) = some mt)
    (hms : state.milestones.find? (fun m =>
      m.episodeId == ep.id && m.milestoneTypeId == mt.id) = some ms)
    (hnd : parseDateReference dtext.data now = some nd)
    (hmsid : state.milestones.find? (fun m => m.id == ms.id) = some ms) :
    (processCommand input now state).2 = state ∧
    (processCommand input now state).1.success = true ∧
    (processCommand input now state).1.conflicts =
      (if (checkDependencies ms nd state).length = 0 then none
       else some (checkDependencies ms nd state)) ∧
    ((checkDependencies ms nd state).length = 0 →
      (processCommand input now state).1.message =
        "Moving " ++ ep.number ++ " " ++ mt.code ++ " to " ++ jsToLocaleDateString nd ++
          " would have no conflicts.") ∧
    ((checkDependencies ms nd state).any (fun c => c.severity == "error") = true →
      (moveMilestone ms.id nd now state).1.success = false ∧
      (moveMilestone ms.id nd now state).1.conflicts = some (checkDependencies ms nd state) ∧
      (moveMilestone ms.id nd now state).2 = state) := by
  have hmain :
      processCommand input now state =
        (if (checkDependencies ms nd state).length = 0 then
          ({ success := true,
             message := "Moving " ++ ep.number ++ " " ++ mt.code ++ " to " ++
               jsToLocaleDateString nd ++ " would have no conflicts.",
             conflicts := none }, state)
        else
          ({ success := true,
             message := "Moving " ++ ep.number ++ " " ++ mt.code ++ " to " ++
               jsToLocaleDateString nd ++ " would cause " ++
               toString (checkDependencies ms nd state).length ++ " issue(s):",
             conflicts := some (checkDependencies ms nd state) }, state)) := by
    unfold processCommand
    rw [hparse]
    dsimp only
    rw [if_neg (show ¬ ((("what_if" : String) == "move") = true) by decide)]
    rw [if_pos (show (("what_if" : String) == "what_if") = true by decide)]
    simp only [Option.getD_some]
    rw [hep, hmt]
    dsimp only
    rw [hms]
    dsimp only
    rw [hnd]
    dsimp only
    by_cases hlen : (checkDependencies ms nd state).length = 0
    · rw [if_pos (by simpa using hlen), if_pos hlen]
    · rw [if_neg (by simpa using hlen), if_neg hlen]
  by_cases hlen : (checkDependencies ms nd state).length = 0
  · rw [hmain, if_pos hlen]
    refine ⟨rfl, rfl, by rw [if_pos hlen], fun _ => rfl, fun herr => ?_⟩
    unfold moveMilestone
    rw [hmsid]
    dsimp only
    rw [if_pos herr]
    exact ⟨rfl, rfl, rfl⟩
  · rw [hmain, if_neg hlen]
    refine ⟨rfl, rfl, by rw [if_neg hlen], fun h => absurd h hlen, fun herr => ?_⟩
    unfold moveMilestone
    rw [hmsid]
    dsimp only
    rw [if_pos herr]
    exact ⟨rfl, rfl, rfl⟩

/-- Witness for `processCommand_whatIf`: the what-if on moving 302's DC to
2024-01-02 (before its EC prerequisite) reports success with the error-level
conflict list while the same Move is blocked, and mutates nothing. -/
theorem processCommand_whatIf_witness :
    (processCommand "what if 302 dc slips to 1/2" 19723 sampleState).2 = sampleState ∧
    (processCommand "what if 302 dc slips to 1/2" 19723 sampleState).1.success = true ∧
    (checkDependencies msDC 19724 sampleState).any (fun c => c.severity == "error") = true ∧
    (moveMilestone "ms-dc-302" 19724 19723 sampleState).1.success = false ∧
    (moveMilestone "ms-dc-302" 19724 19723 sampleState).1.conflicts =
      some (checkDependencies msDC 19724 sampleState) := by
  have h := processCommand_whatIf "what if 302 dc slips to 1/2" 19723 sampleState
    "302" "DC" "1/2" sampleEpisode
    { id := "mt-dc", projectId := "demo-project", code := "DC", name := "Directors Cut",
      sortOrder := 2, isHardDeadline := false, requiresCompletionOf := ["EC"], createdAt := 0 }
    msDC 19724
    (by decide) (by decide) (by decide) (by decide) (by decide) (by decide)
  have herr : (checkDependencies msDC 19724 sampleState).any
      (fun c => c.severity == "error") = true := by decide
  exact ⟨h.1, h.2.1, herr, (h.2.2.2.2 herr).1, (h.2.2.2.2 herr).2.1⟩

/-- When the normalised text is not a literal keyword and contains a day
name (first match at index `i`), `parseDateReference` returns the reference
date plus the source's day-of-week offset. -/
theorem parseDateReference_dow_eq (text : List Char) (r : Int) (i : Nat)
    (h1 : jsTrim (jsToLowerStr text) ≠ "today".data)
    (h2 : jsTrim (jsToLowerStr text) ≠ "tomorrow".data)
    (h3 : jsTrim (jsToLowerStr text) ≠ "yesterday".data)
    (hfind : daysOfWeek.findIdx? (fun d => containsStr (jsTrim (jsToLowerStr text)) d) =
      some i) :
    parseDateReference text r =
      some (addDays r (if containsStr (jsTrim (jsToLowerStr text)) ("next".data)
        then dowOffset i r + 7 else dowOffset i r)) := by
  unfold parseDateReference
  dsimp only
  rw [if_neg h1, if_neg h2, if_neg h3, hfind]
  rfl

/-- **C6 counterexample.**  With the reference date a Monday (day 4,
1970-01-05) and date text "monday", the code returns reference+7: it skips
to the following week although the named day is the reference day itself and
the text does not contain "next"; the claim's next-occurrence-on-or-after
rule yields the reference date instead. -/
theorem parseDateReference_dow_counterexample :
    getDay 4 = 1 ∧
    parseDateReference ("monday".data) 4 = some 11 ∧
    claimNextOnOrAfter 1 4 false = 4 ∧
    containsStr (jsTrim (jsToLowerStr ("monday".data))) ("next".data) = false ∧
    (some (11 : Int) ≠ some (4 : Int)) := by decide

/-- **C6 (amended).**  For every reference date and date text containing a
day-of-week name (matched case-insensitively as a substring, text not one of
the literal keywords), the resolver returns the next occurrence of that day
STRICTLY AFTER the reference date — between one and seven days later, landing
on the named day — plus a further week when the text contains "next" (so a
named day that coincides with the reference day resolves to the following
week, not the reference day itself); in particular, for any reference date
that is a Monday, resolving "Friday" returns the reference date plus four
days. -/
theorem parseDateReference_dayOfWeek (text : List Char) (r : Int) (i : Nat)
    (h1 : jsTrim (jsToLowerStr text) ≠ "today".data)
    (h2 : jsTrim (jsToLowerStr text) ≠ "tomorrow".data)
    (h3 : jsTrim (jsToLowerStr text) ≠ "yesterday".data)
    (hfind : daysOfWeek.findIdx? (fun d => containsStr (jsTrim (jsToLowerStr text)) d) =
      some i)
    (hi : i ≤ 6) :
    parseDateReference text r =
      some (addDays r (if containsStr (jsTrim (jsToLowerStr text)) ("next".data)
        then dowOffset i r + 7 else dowOffset i r)) ∧
    1 ≤ dowOffset i r ∧ dowOffset i r ≤ 7 ∧ getDay (r + dowOffset i r) = i ∧
    (∀ r2 : Int, getDay r2 = 1 → parseDateReference ("Friday".data) r2 = some (r2 + 4)) := by
  have hmod0 : 0 ≤ (r + 4).emod 7 := Int.emod_nonneg _ (by norm_num)
  have hmod1 : (r + 4).emod 7 < 7 := Int.emod_lt_of_pos _ (by norm_num)
  refine ⟨parseDateReference_dow_eq text r i h1 h2 h3 hfind, ?_, ?_, ?_, ?_⟩
  · unfold dowOffset getDay
    split <;> omega
  · unfold dowOffset getDay
    split <;> omega
  · have hq := Int.emod_add_ediv (r + 4) 7
    unfold dowOffset getDay
    generalize he : (r + 4).emod 7 = e at hq hmod0 hmod1 ⊢
    split <;> omega
  · intro r2 hr2
    have h := parseDateReference_dow_eq ("Friday".data) r2 5 (by decide) (by decide)
      (by decide) (by decide)
    rw [h]
    have : dowOffset 5 r2 = 4 := by
      unfold dowOffset
      rw [hr2]
      norm_num
    rw [this, if_neg (by decide)]
    rfl

/-- Witness for `parseDateReference_dayOfWeek`: "tuesday" from Monday
1970-01-05 (day 4) resolves to the next day, day 5. -/
theorem parseDateReference_dayOfWeek_witness :
    parseDateReference ("tuesday".data) 4 =
      some (addDays 4 (if containsStr (jsTrim (jsToLowerStr ("tuesday".data))) ("next".data)
        then dowOffset 2 4 + 7 else dowOffset 2 4)) ∧
    dowOffset 2 4 = 1 ∧ getDay (4 + dowOffset 2 4) = 2 := by
  have h := parseDateReference_dayOfWeek ("tuesday".data) 4 2 (by decide) (by decide)
    (by decide) (by decide) (by decide)
  exact ⟨h.1, by decide, h.2.2.2.1⟩

/-- Characters with different code points differ. -/
theorem char_ne_of_toNat_ne {c d : Char} (h : c.toNat ≠ d.toNat) : c ≠ d :=
  fun he => h (by rw [he])

/-- Boolean form of `char_ne_of_toNat_ne`. -/
theorem char_beq_false_of_toNat_ne {c d : Char} (h : c.toNat ≠ d.toNat) : (c == d) = false :=
  beq_eq_false_iff_ne.mpr (char_ne_of_toNat_ne h)

/-- A digit-or-slash character has code point 48–57 or 47. -/
theorem dsChar_toNat {c : Char} (h : dsChar c = true) :
    (48 ≤ c.toNat ∧ c.toNat ≤ 57) ∨ c.toNat = 47 := by
  unfold dsChar at h
  simp [Char.isDigit] at h
  rcases h with h | h
  · exact Or.inl h
  · subst h; right; rfl

/-- A digit is a digit-or-slash character. -/
theorem ds_of_digit {c : Char} (h : Char.isDigit c = true) : dsChar c = true := by
  unfold dsChar
  rw [h]
  rfl

/-- A digit is not the slash character. -/
theorem digit_beq_slash {c : Char} (h : Char.isDigit c = true) : (c == '/') = false := by
  have hb : 48 ≤ c.toNat ∧ c.toNat ≤ 57 := by simp [Char.isDigit] at h; exact h
  exact char_beq_false_of_toNat_ne (by have h47 : ('/').toNat = 47 := rfl; omega)

/-- Lower-casing leaves a digit-or-slash character unchanged. -/
theorem jsToLowerChar_ds {c : Char} (h : dsChar c = true) : jsToLowerChar c = c := by
  have := dsChar_toNat h
  unfold jsToLowerChar
  rw [if_neg (by omega)]

/-- A digit-or-slash character is not white space. -/
theorem jsIsSpace_ds {c : Char} (h : dsChar c = true) : jsIsSpace c = false := by
  have hb := dsChar_toNat h
  unfold jsIsSpace
  have h1 : (c == ' ') = false :=
    char_beq_false_of_toNat_ne (by have : (' ').toNat = 32 := rfl; omega)
  have h2 : (c == Char.ofNat 9) = false :=
    char_beq_false_of_toNat_ne (by have : (Char.ofNat 9).toNat = 9 := rfl; omega)
  have h3 : (c == Char.ofNat 10) = false :=
    char_beq_false_of_toNat_ne (by have : (Char.ofNat 10).toNat = 10 := rfl; omega)
  have h4 : (c == Char.ofNat 13) = false :=
    char_beq_false_of_toNat_ne (by have : (Char.ofNat 13).toNat = 13 := rfl; omega)
  rw [h1, h2, h3, h4]
  rfl

/-- `dropWhile` is the identity when no element satisfies the predicate. -/
theorem dropWhile_eq_self_of_false {p : Char → Bool} {s : List Char}
    (h : ∀ c ∈ s, p c = false) : s.dropWhile p = s := by
  cases s with
  | nil => rfl
  | cons c t => simp [List.dropWhile_cons, h c (List.mem_cons_self c t)]

/-- Trimming is the identity on space-free strings. -/
theorem jsTrim_eq_self {s : List Char} (h : ∀ c ∈ s, jsIsSpace c = false) : jsTrim s = s := by
  unfold jsTrim
  rw [dropWhile_eq_self_of_false h,
    dropWhile_eq_self_of_false (fun c hc => h c (List.mem_reverse.mp hc)),
    List.reverse_reverse]

/-- Lower-casing is the identity when it fixes every character. -/
theorem jsToLowerStr_eq_self {s : List Char} (h : ∀ c ∈ s, jsToLowerChar c = c) :
    jsToLowerStr s = s := by
  unfold jsToLowerStr
  rw [List.map_congr_left h, List.map_id']

/-- Normalisation (lower-case then trim) is the identity on digit-or-slash
strings. -/
theorem normalize_ds {s : List Char} (h : ∀ c ∈ s, dsChar c = true) :
    jsTrim (jsToLowerStr s) = s := by
  rw [jsToLowerStr_eq_self (fun c hc => jsToLowerChar_ds (h c hc))]
  exact jsTrim_eq_self (fun c hc => jsIsSpace_ds (h c hc))

/-- A pattern whose head occurs nowhere in the string is not contained. -/
theorem containsStr_false_of_head {s : List Char} {k : Char} {tl : List Char}
    (hs : ∀ c ∈ s, (k == c) = false) : containsStr s (k :: tl) = false := by
  induction s with
  | nil => rfl
  | cons c t ih =>
    rw [containsStr]
    have hp : isPrefixB (k :: tl) (c :: t) = false := by
      unfold isPrefixB
      rw [hs c (List.mem_cons_self c t)]
      rfl
    rw [if_neg (by simp [hp])]
    exact ih (fun x hx => hs x (List.mem_cons_of_mem _ hx))

/-- A digit-or-slash string contains no pattern headed by a lower-case
letter. -/
theorem ds_head_not_contains {n : List Char} (hall : ∀ c ∈ n, dsChar c = true)
    (k : Char) (tl : List Char) (hk : 97 ≤ k.toNat) :
    containsStr n (k :: tl) = false :=
  containsStr_false_of_head (fun c hc =>
    char_beq_false_of_toNat_ne (by have := dsChar_toNat (hall c hc); omega))

/-- A digit-or-slash string differs from any keyword containing a character
that is neither digit nor slash. -/
theorem ne_keyword_of_ds {s kw : List Char} (hall : ∀ c ∈ s, dsChar c = true)
    (hkw : ∃ k ∈ kw, dsChar k = false) : s ≠ kw := by
  intro he
  subst he
  obtain ⟨k, hk, hfalse⟩ := hkw
  rw [hall k hk] at hfalse
  cases hfalse

/-- `findIdx?` finds nothing when the predicate holds nowhere. -/
theorem findIdx?_eq_none_of_all_false {α : Type} {p : α → Bool} {l : List α}
    (h : ∀ a ∈ l, p a = false) : ∀ i, l.findIdx? p i = none := by
  induction l with
  | nil => intro i; rfl
  | cons a t ih =>
    intro i
    rw [List.findIdx?_cons, h a (List.mem_cons_self a t)]
    simp only [Bool.false_eq_true, if_false]
    exact ih (fun x hx => h x (List.mem_cons_of_mem _ hx)) (i + 1)

/-- A list of length one or two is `[a]` or `[a, b]`. -/
theorem list_shape12 {l : List Char} (h : l.length = 1 ∨ l.length = 2) :
    (∃ a, l = [a]) ∨ ∃ a b, l = [a, b] := by
  rcases l with - | ⟨a, - | ⟨b, - | ⟨c, t⟩⟩⟩
  · simp at h
  · exact Or.inl ⟨a, rfl⟩
  · exact Or.inr ⟨a, b, rfl⟩
  · simp at h

/-- A list of length two or four is `[a, b]` or `[a, b, c, d]`. -/
theorem list_shape24 {l : List Char} (h : l.length = 2 ∨ l.length = 4) :
    (∃ a b, l = [a, b]) ∨ ∃ a b c d, l = [a, b, c, d] := by
  rcases l with - | ⟨a, - | ⟨b, - | ⟨c, - | ⟨d, - | ⟨e, t⟩⟩⟩⟩⟩
  · simp at h
  · simp at h
  · exact Or.inl ⟨a, b, rfl⟩
  · simp at h
  · exact Or.inr ⟨a, b, c, d, rfl⟩
  · simp at h

/-- The slash-date regex on a well-formed slash text finds exactly the
month, day and optional year digit blocks. -/
theorem slashSearch_shape (mb db : List Char) (yb : Option (List Char))
    (hm : mb.length = 1 ∨ mb.length = 2) (hd : db.length = 1 ∨ db.length = 2)
    (hy : ∀ l ∈ yb, l.length = 2 ∨ l.length = 4)
    (hmd : ∀ c ∈ mb, Char.isDigit c = true) (hdd : ∀ c ∈ db, Char.isDigit c = true)
    (hyd : ∀ l ∈ yb, ∀ c ∈ l, Char.isDigit c = true) :
    slashSearch (slashText mb db yb) = some (mb, db, yb) := by
  have hsd : Char.isDigit '/' = false := rfl
  rcases list_shape12 hm with ⟨a, rfl⟩ | ⟨a, b, rfl⟩
  · rcases list_shape12 hd with ⟨c, rfl⟩ | ⟨c, d, rfl⟩
    · rcases yb with - | yl
      · have ha := hmd a (by simp)
        have hc := hdd c (by simp)
        simp [slashText, slashSearch, regexSearch, runRE, slashRE, reSeq, reD12, reD24,
        relit, reDigit, getCap, List.find?, ha, hc, digit_beq_slash ha, digit_beq_slash hc, hsd]
      · rcases list_shape24 (hy yl rfl) with ⟨e, f, rfl⟩ | ⟨e, f, g, h2, rfl⟩
        · have ha := hmd a (by simp)
          have hc := hdd c (by simp)
          have he := hyd _ rfl e (by simp)
          have hf := hyd _ rfl f (by simp)
          simp [slashText, slashSearch, regexSearch, runRE, slashRE, reSeq, reD12, reD24,
        relit, reDigit, getCap, List.find?, ha, hc, he, hf, digit_beq_slash ha, digit_beq_slash hc, digit_beq_slash he, digit_beq_slash hf, hsd]
        · have ha := hmd a (by simp)
          have hc := hdd c (by simp)
          have he := hyd _ rfl e (by simp)
          have hf := hyd _ rfl f (by simp)
          have hg := hyd _ rfl g (by simp)
          have hh2 := hyd _ rfl h2 (by simp)
          simp [slashText, slashSearch, regexSearch, runRE, slashRE, reSeq, reD12, reD24,
        relit, reDigit, getCap, List.find?, ha, hc, he, hf, hg, hh2, digit_beq_slash ha, digit_beq_slash hc, digit_beq_slash he, digit_beq_slash hf, digit_beq_slash hg, digit_beq_slash hh2, hsd]
    · rcases yb with - | yl
      · have ha := hmd a (by simp)
        have hc := hdd c (by simp)
        have hd := hdd d (by simp)
        simp [slashText, slashSearch, regexSearch, runRE, slashRE, reSeq, reD12, reD24,
        relit, reDigit, getCap, List.find?, ha, hc, hd, digit_beq_slash ha, digit_beq_slash hc, digit_beq_slash hd, hsd]
      · rcases list_shape24 (hy yl rfl) with ⟨e, f, rfl⟩ | ⟨e, f, g, h2, rfl⟩
        · have ha := hmd a (by simp)
          have hc := hdd c (by simp)
          have hd := hdd d (by simp)
          have he := hyd _ rfl e (by simp)
          have hf := hyd _ rfl f (by simp)
          simp [slashText, slashSearch, regexSearch, runRE, slashRE, reSeq, reD12, reD24,
        relit, reDigit, getCap, List.find?, ha, hc, hd, he, hf, digit_beq_slash ha, digit_beq_slash hc, digit_beq_slash hd, digit_beq_slash he, digit_beq_slash hf, hsd]
        · have ha := hmd a (by simp)
          have hc := hdd c (by simp)
          have hd := hdd d (by simp)
          have he := hyd _ rfl e (by simp)
          have hf := hyd _ rfl f (by simp)
          have hg := hyd _ rfl g (by simp)
          have hh2 := hyd _ rfl h2 (by simp)
          simp [slashText, slashSearch, regexSearch, runRE, slashRE, reSeq, reD12, reD24,
        relit, reDigit, getCap, List.find?, ha, hc, hd, he, hf, hg, hh2, digit_beq_slash ha, digit_beq_slash hc, digit_beq_slash hd, digit_beq_slash he, digit_beq_slash hf, digit_beq_slash hg, digit_beq_slash hh2, hsd]
  · rcases list_shape12 hd with ⟨c, rfl⟩ | ⟨c, d, rfl⟩
    · rcases yb with - | yl
      · have ha := hmd a (by simp)
        have hb := hmd b (by simp)
        have hc := hdd c (by simp)
        simp [slashText, slashSearch, regexSearch, runRE, slashRE, reSeq, reD12, reD24,
        relit, reDigit, getCap, List.find?, ha, hb, hc, digit_beq_slash ha, digit_beq_slash hb, digit_beq_slash hc, hsd]
      · rcases list_shape24 (hy yl rfl) with ⟨e, f, rfl⟩ | ⟨e, f, g, h2, rfl⟩
        · have ha := hmd a (by simp)
          have hb := hmd b (by simp)
          have hc := hdd c (by simp)
          have he := hyd _ rfl e (by simp)
          have hf := hyd _ rfl f (by simp)
          simp [slashText, slashSearch, regexSearch, runRE, slashRE, reSeq, reD12, reD24,
        relit, reDigit, getCap, List.find?, ha, hb, hc, he, hf, digit_beq_slash ha, digit_beq_slash hb, digit_beq_slash hc, digit_beq_slash he, digit_beq_slash hf, hsd]
        · have ha := hmd a (by simp)
          have hb := hmd b (by simp)
          have hc := hdd c (by simp)
          have he := hyd _ rfl e (by simp)
          have hf := hyd _ rfl f (by simp)
          have hg := hyd _ rfl g (by simp)
          have hh2 := hyd _ rfl h2 (by simp)
          simp [slashText, slashSearch, regexSearch, runRE, slashRE, reSeq, reD12, reD24,
        relit, reDigit, getCap, List.find?, ha, hb, hc, he, hf, hg, hh2, digit_beq_slash ha, digit_beq_slash hb, digit_beq_slash hc, digit_beq_slash he, digit_beq_slash hf, digit_beq_slash hg, digit_beq_slash hh2, hsd]
    · rcases yb with - | yl
      · have ha := hmd a (by simp)
        have hb := hmd b (by simp)
        have hc := hdd c (by simp)
        have hd := hdd d (by simp)
        simp [slashText, slashSearch, regexSearch, runRE, slashRE, reSeq, reD12, reD24,
        relit, reDigit, getCap, List.find?, ha, hb, hc, hd, digit_beq_slash ha, digit_beq_slash hb, digit_beq_slash hc, digit_beq_slash hd, hsd]
      · rcases list_shape24 (hy yl rfl) with ⟨e, f, rfl⟩ | ⟨e, f, g, h2, rfl⟩
        · have ha := hmd a (by simp)
          have hb := hmd b (by simp)
          have hc := hdd c (by simp)
          have hd := hdd d (by simp)
          have he := hyd _ rfl e (by simp)
          have hf := hyd _ rfl f (by simp)
          simp [slashText, slashSearch, regexSearch, runRE, slashRE, reSeq, reD12, reD24,
        relit, reDigit, getCap, List.find?, ha, hb, hc, hd, he, hf, digit_beq_slash ha, digit_beq_slash hb, digit_beq_slash hc, digit_beq_slash hd, digit_beq_slash he, digit_beq_slash hf, hsd]
        · have ha := hmd a (by simp)
          have hb := hmd b (by simp)
          have hc := hdd c (by simp)
          have hd := hdd d (by simp)
          have he := hyd _ rfl e (by simp)
          have hf := hyd _ rfl f (by simp)
          have hg := hyd _ rfl g (by simp)
          have hh2 := hyd _ rfl h2 (by simp)
          simp [slashText, slashSearch, regexSearch, runRE, slashRE, reSeq, reD12, reD24,
        relit, reDigit, getCap, List.find?, ha, hb, hc, hd, he, hf, hg, hh2, digit_beq_slash ha, digit_beq_slash hb, digit_beq_slash hc, digit_beq_slash hd, digit_beq_slash he, digit_beq_slash hf, digit_beq_slash hg, digit_beq_slash hh2, hsd]

/-- Every character of a well-formed slash text is digit-or-slash. -/
theorem slashText_all_ds {mb db : List Char} {yb : Option (List Char)}
    (hmd : ∀ c ∈ mb, Char.isDigit c = true) (hdd : ∀ c ∈ db, Char.isDigit c = true)
    (hyd : ∀ l ∈ yb, ∀ c ∈ l, Char.isDigit c = true) :
    ∀ c ∈ slashText mb db yb, dsChar c = true := by
  intro c hc
  unfold slashText at hc
  rcases List.mem_append.mp hc with hc | hc
  · exact ds_of_digit (hmd c hc)
  rcases List.mem_cons.mp hc with rfl | hc
  · rfl
  rcases List.mem_append.mp hc with hc | hc
  · exact ds_of_digit (hdd c hc)
  cases yb with
  | none => simp at hc
  | some yl =>
    rcases List.mem_cons.mp hc with rfl | hc
    · rfl
    · exact ds_of_digit (hyd yl rfl c hc)

/-- The resolver on a well-formed slash text: the slash branch fires and
produces the `new Date(year, month-1, day)` value with the year rule of the
source. -/
theorem parseDateReference_slash (mb db : List Char) (yb : Option (List Char)) (r : Int)
    (hm : mb.length = 1 ∨ mb.length = 2) (hd : db.length = 1 ∨ db.length = 2)
    (hy : ∀ l ∈ yb, l.length = 2 ∨ l.length = 4)
    (hmd : ∀ c ∈ mb, Char.isDigit c = true) (hdd : ∀ c ∈ db, Char.isDigit c = true)
    (hyd : ∀ l ∈ yb, ∀ c ∈ l, Char.isDigit c = true) :
    parseDateReference (slashText mb db yb) r =
      some (jsNewDate (slashYear yb r) (parseIntDigits mb - 1) (parseIntDigits db)) := by
  have hall := slashText_all_ds hmd hdd hyd
  have hnorm := normalize_ds hall
  have hslash := slashSearch_shape mb db yb hm hd hy hmd hdd hyd
  unfold parseDateReference
  dsimp only
  rw [hnorm]
  rw [if_neg (ne_keyword_of_ds hall (by decide)),
    if_neg (ne_keyword_of_ds hall (by decide)),
    if_neg (ne_keyword_of_ds hall (by decide))]
  have hdays : ∀ d2 ∈ daysOfWeek, containsStr (slashText mb db yb) d2 = false := by
    intro d2 hd2
    simp only [daysOfWeek, List.mem_cons, List.not_mem_nil, or_false] at hd2
    rcases hd2 with rfl | rfl | rfl | rfl | rfl | rfl | rfl
    · exact ds_head_not_contains hall 's' ("unday".data) (by decide)
    · exact ds_head_not_contains hall 'm' ("onday".data) (by decide)
    · exact ds_head_not_contains hall 't' ("uesday".data) (by decide)
    · exact ds_head_not_contains hall 'w' ("ednesday".data) (by decide)
    · exact ds_head_not_contains hall 't' ("hursday".data) (by decide)
    · exact ds_head_not_contains hall 'f' ("riday".data) (by decide)
    · exact ds_head_not_contains hall 's' ("aturday".data) (by decide)
  rw [findIdx?_eq_none_of_all_false hdays 0]
  dsimp only
  rw [if_neg (by rw [ds_head_not_contains hall 'n' ("ext week".data) (by decide)]; simp)]
  rw [hslash]
  rfl

/-- Under the month bound the source's `new Date(year, month-1, day)` is the
plain Gregorian day number of `year-month-day` (for years outside the
ECMAScript two-digit range). -/
theorem jsNewDate_eq_daysFromCivil (y m d : Int) (hm1 : 1 ≤ m) (hm2 : m ≤ 12)
    (hy : ¬(0 ≤ y ∧ y ≤ 99)) : jsNewDate y (m - 1) d = daysFromCivil y m d := by
  unfold jsNewDate
  dsimp only
  rw [if_neg hy]
  have hf : (m - 1).fdiv 12 = 0 := by
    rw [Int.fdiv_eq_ediv _ (by norm_num)]
    omega
  rw [hf]
  have h1 : y + 0 = y := by ring
  have h2 : m - 1 - 12 * 0 + 1 = m := by ring
  rw [h1, h2]

/-- A date text recognised by none of the resolver's branch conditions
resolves to `none` rather than raising an error. -/
theorem parseDateReference_none_of_unrecognized (s : List Char) (r : Int)
    (h : recognizedDate s = false) : parseDateReference s r = none := by
  unfold recognizedDate at h
  dsimp only at h
  obtain ⟨h, h7⟩ := Bool.or_eq_false_iff.mp h
  obtain ⟨h, h6⟩ := Bool.or_eq_false_iff.mp h
  obtain ⟨h, h5⟩ := Bool.or_eq_false_iff.mp h
  obtain ⟨h, h4⟩ := Bool.or_eq_false_iff.mp h
  obtain ⟨h, h3⟩ := Bool.or_eq_false_iff.mp h
  obtain ⟨h1, h2⟩ := Bool.or_eq_false_iff.mp h
  unfold parseDateReference
  dsimp only
  rw [if_neg (by simpa using h1), if_neg (by simpa using h2), if_neg (by simpa using h3)]
  have hfindN : daysOfWeek.findIdx?
      (fun d => containsStr (jsTrim (jsToLowerStr s)) d) = none := by
    apply findIdx?_eq_none_of_all_false
    intro d2 hd2
    simp only [List.any_eq_false] at h4
    simpa using h4 d2 hd2
  rw [hfindN]
  dsimp only
  rw [if_neg (by rw [h5]; simp)]
  have h6' : slashSearch (jsTrim (jsToLowerStr s)) = none :=
    Option.not_isSome_iff_eq_none.mp (by simp [h6])
  rw [h6']
  dsimp only
  exact Option.not_isSome_iff_eq_none.mp (by simp [h7])

/-- **C7.**  For every slash-delimited date text of the form `M/D` or
`M/D/YY[YY]` (one-or-two-digit month and day blocks, optional two- or
four-digit year block), the resolver returns the `new Date` value of that
date, defaulting the year to the reference date's year when absent and
interpreting a two-digit year as `2000 + YY`; under the month bound and for
years outside the ECMAScript two-digit range that value is exactly the
calendar date `year-M-D`; `resolve("12/20", 2024-01-01)` is 2024-12-20; and
for every text matching none of the recognised forms — such as "gibberish" —
the resolver returns `none` rather than raising an error. -/
theorem parseDateReference_slash_spec :
    (∀ (mb db : List Char) (yb : Option (List Char)) (r : Int),
      mb.length = 1 ∨ mb.length = 2 → db.length = 1 ∨ db.length = 2 →
      (∀ l ∈ yb, l.length = 2 ∨ l.length = 4) →
      (∀ c ∈ mb, Char.isDigit c = true) → (∀ c ∈ db, Char.isDigit c = true) →
      (∀ l ∈ yb, ∀ c ∈ l, Char.isDigit c = true) →
      parseDateReference (slashText mb db yb) r =
        some (jsNewDate (slashYear yb r) (parseIntDigits mb - 1) (parseIntDigits db))) ∧
    (∀ y m d : Int, 1 ≤ m → m ≤ 12 → ¬(0 ≤ y ∧ y ≤ 99) →
      jsNewDate y (m - 1) d = daysFromCivil y m d) ∧
    parseDateReference ("12/20".data) (daysFromCivil 2024 1 1) =
      some (daysFromCivil 2024 12 20) ∧
    (∀ r : Int, parseDateReference ("gibberish".data) r = none) ∧
    (∀ (s : List Char) (r : Int), recognizedDate s = false →
      parseDateReference s r = none) :=
  ⟨fun mb db yb r hm hd hy hmd hdd hyd =>
    parseDateReference_slash mb db yb r hm hd hy hmd hdd hyd,
   jsNewDate_eq_daysFromCivil,
   by decide,
   fun r => parseDateReference_none_of_unrecognized ("gibberish".data) r (by decide),
   parseDateReference_none_of_unrecognized⟩

/-- Witness for `parseDateReference_slash_spec` at concrete inputs:
"12/20" against 2024-01-01 resolves through the slash branch to 2024-12-20,
and the unrecognised text "hello world" resolves to `none`. -/
theorem parseDateReference_slash_spec_witness :
    parseDateReference (slashText ("12".data) ("20".data) none) (daysFromCivil 2024 1 1) =
      some (jsNewDate (slashYear none (daysFromCivil 2024 1 1))
        (parseIntDigits ("12".data) - 1) (parseIntDigits ("20".data))) ∧
    jsNewDate 2024 (12 - 1) 20 = daysFromCivil 2024 12 20 ∧
    recognizedDate ("hello world".data) = false ∧
    parseDateReference ("hello world".data) 19723 = none := by
  refine ⟨parseDateReference_slash_spec.1 ("12".data) ("20".data) none _
      (by decide) (by decide) (by intro l hl; simp at hl) (by decide) (by decide)
      (by intro l hl; simp at hl),
    parseDateReference_slash_spec.2.1 2024 12 20 (by norm_num) (by norm_num) (by norm_num),
    by decide,
    parseDateReference_slash_spec.2.2.2.2 ("hello world".data) 19723 (by decide)⟩

/-- Witness for `moveMilestone_frame`: after the successful clean move of DC
in the sample state, the collections are unchanged and the EC milestone at
index 0 is untouched while DC at index 1 changed only date and timestamp. -/
theorem moveMilestone_frame_witness :
    (moveMilestone "ms-dc-302" 19741 100 sampleState).1.success = true ∧
    (moveMilestone "ms-dc-302" 19741 100 sampleState).2.episodes = sampleState.episodes ∧
    (moveMilestone "ms-dc-302" 19741 100 sampleState).2.milestones.length =
      sampleState.milestones.length := by
  have h : (moveMilestone "ms-dc-302" 19741 100 sampleState).1.success = true := by decide
  have frame := moveMilestone_frame sampleState "ms-dc-302" 19741 100 h
  exact ⟨h, frame.1, frame.2.2.2.2.2.1⟩

end PostPro
